import Mathlib

/-!
# lambda-fixUnhealthyHost: the alarm handler of `main.go`

A shallow embedding of `handler`, `executeCmd` and `getInstanceIpByInstanceId`.
The program is glue around four outside systems (the JSON decoder, the
load-balancer API, the compute-directory API and the remote shell).  Each
outside call is a field of `World`, a table of answers; every function of the
program becomes a function into `Exec`, which records the observable events in
order together with the way the run ended: a normal return, a Go run-time
panic, or the process exit of `log.Fatalf`.
-/

namespace FixUnhealthyHost

/-! ## Data model -/

/-- One element of `Trigger.Dimensions` (main.go 48-51). -/
structure Dimension where
  Value : String
  Name : String
  deriving DecidableEq, Repr

/-- The anonymous struct of the field `Trigger` (main.go 42-58).  The field
`Unit` has type `interface{}`; the handler never reads it and it is kept as
an optional text. -/
structure Trigger where
  MetricName : String
  Namespace : String
  StatisticType : String
  Statistic : String
  Unit : Option String
  Dimensions : List Dimension
  Period : Int
  EvaluationPeriods : Int
  ComparisonOperator : String
  Threshold : Int
  TreatMissingData : String
  EvaluateLowSampleCountPercentile : String
  deriving DecidableEq, Repr

/-- The struct `SNSMessage` (main.go 32-59). -/
structure SNSMessage where
  AlarmName : String
  AlarmDescription : String
  AWSAccountID : String
  NewStateValue : String
  NewStateReason : String
  StateChangeTime : String
  Region : String
  AlarmArn : String
  OldStateValue : String
  Trigger : Trigger
  deriving DecidableEq, Repr

/-- The zero value of `Trigger`. -/
def Trigger.zero : Trigger :=
  ⟨"", "", "", "", none, [], 0, 0, "", 0, "", ""⟩

/-- The zero value of `SNSMessage`, what `var snsMessage SNSMessage` holds
(main.go 62). -/
def SNSMessage.zero : SNSMessage :=
  ⟨"", "", "", "", "", "", "", "", "", Trigger.zero⟩

/-- The part of `events.SNSEntity` the handler reads. -/
structure SNSEntity where
  Message : String
  deriving DecidableEq, Repr

/-- The part of `events.SNSEventRecord` the handler reads. -/
structure SNSEventRecord where
  SNS : SNSEntity
  deriving DecidableEq, Repr

/-- The trigger input `events.SNSEvent`. -/
structure SNSEvent where
  Records : List SNSEventRecord
  deriving DecidableEq, Repr

/-- An `error` value returned by an SDK call: either one that satisfies
`awserr.Error` (with its `Code()` and the text of `Error()`), or any other
error (with the text of `Error()`). -/
inductive SdkError where
  | aws (code : String) (text : String)
  | plain (text : String)
  deriving DecidableEq, Repr

/-- `elbv2.TargetDescription`: `Id` is a `*string`. -/
structure TargetDescription where
  Id : Option String
  deriving DecidableEq, Repr

/-- `elbv2.TargetHealth`: `State` is a `*string`. -/
structure TargetHealth where
  State : Option String
  deriving DecidableEq, Repr

/-- `elbv2.TargetHealthDescription`: both fields are pointers. -/
structure TargetHealthDescription where
  Target : Option TargetDescription
  TargetHealth : Option TargetHealth
  deriving DecidableEq, Repr

/-- `elbv2.DescribeTargetHealthOutput`: a slice of pointers. -/
structure DescribeTargetHealthOutput where
  TargetHealthDescriptions : List (Option TargetHealthDescription)
  deriving DecidableEq, Repr

/-- `ec2.Instance`: `PrivateIpAddress` is a `*string`. -/
structure Instance where
  PrivateIpAddress : Option String
  deriving DecidableEq, Repr

/-- `ec2.Reservation`: a slice of pointers to instances. -/
structure Reservation where
  Instances : List (Option Instance)
  deriving DecidableEq, Repr

/-- `ec2.DescribeInstancesOutput`: a slice of pointers to reservations. -/
structure DescribeInstancesOutput where
  Reservations : List (Option Reservation)
  deriving DecidableEq, Repr

/-- An `ssh.Signer` obtained from key material. -/
structure Signer where
  key : String
  deriving DecidableEq, Repr

/-- The `ssh.ClientConfig` built at main.go 105-112: the login name, the
signer given to `ssh.PublicKeys`, and the host-key callback, which is always
`ssh.InsecureIgnoreHostKey()`. -/
structure ClientConfig where
  User : String
  Auth : Option Signer
  insecureIgnoreHostKey : Bool
  deriving DecidableEq, Repr

/-- A connected `*ssh.Client`. -/
structure Client where
  handle : Nat
  deriving DecidableEq, Repr

/-- An open `*ssh.Session`. -/
structure Session where
  handle : Nat
  deriving DecidableEq, Repr

/-- The package-level declarations of main.go 21-30: the four variables `main`
fills from the process environment, and the key material `pem`.  The source
ships `pem` as a blank literal to be filled in before deployment, so it is
carried here with the rest of the configuration. -/
structure Globals where
  applicationStartCommand : String
  applicationStopCommand : String
  defaultRegion : String
  osUser : String
  pem : String
  deriving DecidableEq, Repr

/-- The literal of `const pem` as published (main.go 30). -/
def pem : String := ""

/-- The error codes of package `elbv2` named at main.go 83-87. -/
def ErrCodeInvalidTargetException : String := "InvalidTarget"

/-- See `ErrCodeInvalidTargetException`. -/
def ErrCodeTargetGroupNotFoundException : String := "TargetGroupNotFound"

/-- See `ErrCodeInvalidTargetException`. -/
def ErrCodeHealthUnavailableException : String := "HealthUnavailable"

/-! ## The outside world -/

/-- The answers of the outside systems.  A Go call returning `(value, error)`
is a pair of options: `none` is `nil`.
* `Unmarshal data target` is `json.Unmarshal(data, &target)`: the error and
  the content of `target` after the call.
* `DescribeTargetHealth region arn`, `DescribeInstances region id`: the two SDK
  calls, made through a client for `region`.  The SDK allocates the output
  before it sends the request and returns it beside the error, so a failed call
  answers with an empty output.
* `ParsePrivateKey`, `Dial`, `NewSession`: package `ssh`.
* `Run session cmd`: what `session.Run(cmd)` writes to the session's standard
  output, and the error it returns. -/
structure World where
  Unmarshal : String → SNSMessage → Option String × SNSMessage
  DescribeTargetHealth : String → String → Option DescribeTargetHealthOutput × Option SdkError
  DescribeInstances : String → String → Option DescribeInstancesOutput × Option SdkError
  ParsePrivateKey : String → Option Signer × Option String
  Dial : String → String → ClientConfig → Option Client × Option String
  NewSession : Client → Option Session × Option String
  Run : Session → String → String × Option String

/-- What a run lets the outside observe, one constructor per statement of
main.go that calls out or prints. -/
inductive Event where
  /-- Line 67, `log.Print(err)`. -/
  | logDecodeError (text : String)
  /-- Line 79, `svc.DescribeTargetHealth(input)`. -/
  | describeTargetHealth (region : String) (arn : String)
  /-- Lines 84-93, `log.Println(...)` with its arguments. -/
  | logPrintln (args : List String)
  /-- Line 146, `svc.DescribeInstances(input)`. -/
  | describeInstances (region : String) (instanceId : String)
  /-- Lines 151 and 156, `fmt.Println(...)`. -/
  | fmtPrintln (text : String)
  /-- Line 100, `log.Printf("Unhealthy target is %s, the IP is %s", ...)`. -/
  | logUnhealthy (id : String) (ip : String)
  /-- Line 101, `ssh.ParsePrivateKey([]byte(pem))`. -/
  | parsePrivateKey (pem : String)
  /-- Line 103, the message of `log.Fatalf`. -/
  | logFatalf (text : String)
  /-- Line 130, `ssh.Dial(network, addr, config)`. -/
  | dial (network : String) (addr : String) (config : ClientConfig)
  /-- Line 131, `conn.NewSession()`. -/
  | newSession (conn : Client)
  /-- Line 135, `session.Run(cmd)`. -/
  | run (session : Session) (cmd : String)
  /-- Line 132, the deferred `session.Close()`. -/
  | close (session : Session)
  /-- Line 114, `log.Printf("stop command is result: %s", stopResult)`. -/
  | logStop (result : String)
  /-- Line 116, `log.Printf("start command is result: %s", startResult)`. -/
  | logStart (result : String)
  /-- Line 121, `log.Printf("Resource name is %s, value is %s\n", ...)`. -/
  | logResource (name : String) (value : String)
  /-- Line 124, `log.Printf("Region is %s\n", snsMessage.Region)`. -/
  | logRegion (region : String)
  deriving DecidableEq, Repr

/-- The ways a run ends other than by returning. -/
inductive Fault where
  /-- A Go panic: a nil pointer was dereferenced. -/
  | nilPointerDereference
  /-- A Go panic: a slice was indexed out of range. -/
  | indexOutOfRange
  /-- The `os.Exit` at the end of `log.Fatalf`. -/
  | exit (code : Nat)
  deriving DecidableEq, Repr

/-- How a run ended. -/
inductive Outcome (α : Type) where
  | returned (value : α)
  | stopped (fault : Fault)
  deriving DecidableEq, Repr

/-- A run: the events in order, and how it ended. -/
structure Exec (α : Type) where
  trace : List Event
  outcome : Outcome α
  deriving DecidableEq, Repr

namespace Exec

/-- A run that returns at once. -/
def ret {α : Type} (a : α) : Exec α := ⟨[], .returned a⟩

/-- A run that stops at once. -/
def stop {α : Type} (f : Fault) : Exec α := ⟨[], .stopped f⟩

/-- A run of one event. -/
def emit (e : Event) : Exec Unit := ⟨[e], .returned ()⟩

/-- Sequencing: the second run happens only when the first one returned. -/
def andThen {α β : Type} (x : Exec α) (k : α → Exec β) : Exec β :=
  match x.outcome with
  | .returned a => ⟨x.trace ++ (k a).trace, (k a).outcome⟩
  | .stopped f => ⟨x.trace, .stopped f⟩

instance : Monad Exec where
  pure := ret
  bind := andThen

/-- Dereferencing a pointer: a nil pointer panics. -/
def deref {α : Type} : Option α → Exec α
  | some a => ret a
  | none => stop .nilPointerDereference

/-- Indexing a slice: an index past the end panics. -/
def index {α : Type} (xs : List α) (i : Nat) : Exec α :=
  match xs.get? i with
  | some a => ret a
  | none => stop .indexOutOfRange

/-- A `for _, x := range xs` loop. -/
def forEach {α : Type} : List α → (α → Exec Unit) → Exec Unit
  | [], _ => ret ()
  | x :: rest, body => andThen (body x) (fun _ => forEach rest body)

/-- A `for _, x := range xs` loop whose body updates one variable. -/
def forEachWith {α σ : Type} : List α → σ → (σ → α → Exec σ) → Exec σ
  | [], s, _ => ret s
  | x :: rest, s, body => andThen (body s x) (fun s1 => forEachWith rest s1 body)

end Exec

open Exec

/-! ## The program -/

/-- The function `executeCmd` (main.go 129-137).  Both errors are discarded: a
failed `ssh.Dial` leaves `conn` nil and `conn.NewSession()` panics; a failed
`NewSession` leaves `session` nil and the assignment to `session.Stdout`
panics (and so does the deferred `Close`). -/
def executeCmd (w : World) (cmd hostname : String) (config : ClientConfig) : Exec String := do
  emit (.dial "tcp" (hostname ++ ":22") config)
  let conn ← deref (w.Dial "tcp" (hostname ++ ":22") config).1
  emit (.newSession conn)
  let session ← deref (w.NewSession conn).1
  emit (.run session cmd)
  let stdoutBuf := (w.Run session cmd).1
  emit (.close session)
  pure (hostname ++ ": " ++ stdoutBuf)

/-- The function `getInstanceIpByInstanceId` (main.go 139-161). -/
def getInstanceIpByInstanceId (w : World) (g : Globals) (instanceId : String) : Exec String := do
  emit (.describeInstances g.defaultRegion instanceId)
  match w.DescribeInstances g.defaultRegion instanceId with
  | (_, some (.aws _ text)) =>
    emit (.fmtPrintln text)
    pure ""
  | (_, some (.plain text)) =>
    emit (.fmtPrintln text)
    pure ""
  | (result, none) =>
    let out ← deref result
    let reservation ← deref (← index out.Reservations 0)
    let inst ← deref (← index reservation.Instances 0)
    deref inst.PrivateIpAddress

/-- The error branch of `handler` after the health query (main.go 80-95). -/
def logHealthError : Option SdkError → Exec Unit
  | none => pure ()
  | some (.aws code text) =>
    if code = ErrCodeInvalidTargetException then
      emit (.logPrintln [ErrCodeInvalidTargetException, text])
    else if code = ErrCodeTargetGroupNotFoundException then
      emit (.logPrintln [ErrCodeTargetGroupNotFoundException, text])
    else if code = ErrCodeHealthUnavailableException then
      emit (.logPrintln [ErrCodeHealthUnavailableException, text])
    else
      emit (.logPrintln [text])
  | some (.plain text) => emit (.logPrintln [text])

/-- The body of the loop over `resp.TargetHealthDescriptions`
(main.go 98-117). -/
def handlerTarget (w : World) (g : Globals)
    (targetHealthDesc : Option TargetHealthDescription) : Exec Unit := do
  let desc ← deref targetHealthDesc
  let health ← deref desc.TargetHealth
  let state ← deref health.State
  if state = "unhealthy" then
    let target ← deref desc.Target
    let id ← deref target.Id
    let unhealthyHostIp ← getInstanceIpByInstanceId w g id
    emit (.logUnhealthy id unhealthyHostIp)
    emit (.parsePrivateKey g.pem)
    match w.ParsePrivateKey g.pem with
    | (_, some err) =>
      emit (.logFatalf ("unable to parse private key: " ++ err))
      stop (.exit 1)
    | (signer, none) =>
      let config : ClientConfig := ⟨g.osUser, signer, true⟩
      let stopResult ← executeCmd w g.applicationStopCommand unhealthyHostIp config
      emit (.logStop stopResult)
      let startResult ← executeCmd w g.applicationStartCommand unhealthyHostIp config
      emit (.logStart startResult)
  else
    pure ()

/-- The branch of `handler` taken for a dimension named `TargetGroup`
(main.go 72-119).  The error of the health query is logged and the response is
read whether or not there was one. -/
def handlerTargetGroup (w : World) (g : Globals) (resource : Dimension) : Exec Unit := do
  let targetGroupArn :=
    "arn:aws:elasticloadbalancing:" ++ g.defaultRegion ++ ":197542431507:" ++ resource.Value
  emit (.describeTargetHealth g.defaultRegion targetGroupArn)
  let (resp, err) := w.DescribeTargetHealth g.defaultRegion targetGroupArn
  logHealthError err
  let out ← deref resp
  if 0 < out.TargetHealthDescriptions.length then
    forEach out.TargetHealthDescriptions (handlerTarget w g)
  else
    pure ()

/-- The body of the loop over `snsMessage.Trigger.Dimensions`
(main.go 71-121). -/
def handlerDimension (w : World) (g : Globals) (resource : Dimension) : Exec Unit := do
  if resource.Name = "TargetGroup" then
    handlerTargetGroup w g resource
  else
    pure ()
  emit (.logResource resource.Name resource.Value)

/-- The body of the loop over `event.Records` (main.go 65-124); the variable
`snsMessage` is declared before the loop, so its content is carried from one
record to the next. -/
def handlerRecord (w : World) (g : Globals) (snsMessage : SNSMessage)
    (record : SNSEventRecord) : Exec SNSMessage := do
  let (err, snsMessage) := w.Unmarshal record.SNS.Message snsMessage
  match err with
  | some text => emit (.logDecodeError text)
  | none => pure ()
  if 0 < snsMessage.Trigger.Dimensions.length then
    forEach snsMessage.Trigger.Dimensions (handlerDimension w g)
  else
    pure ()
  emit (.logRegion snsMessage.Region)
  pure snsMessage

/-- The function `handler` (main.go 61-127). -/
def handler (w : World) (g : Globals) (event : SNSEvent) : Exec Unit := do
  if 0 < event.Records.length then
    let _ ← forEachWith event.Records SNSMessage.zero (handlerRecord w g)
    pure ()
  else
    pure ()

/-! ## Observations on a trace -/

/-- The text of `err.Error()`. -/
def SdkError.Error : SdkError → String
  | .aws _ text => text
  | .plain text => text

/-- The event is a load-balancer health query. -/
def isHealthQuery : Event → Bool
  | .describeTargetHealth _ _ => true
  | _ => false

/-- The event is a compute-directory (address resolution) call. -/
def isDirectoryCall : Event → Bool
  | .describeInstances _ _ => true
  | _ => false

/-- The event is a remote-shell call. -/
def isShellCall : Event → Bool
  | .dial _ _ _ => true
  | .newSession _ => true
  | .run _ _ => true
  | .close _ => true
  | _ => false

/-- The event is a call to one of the three outside services. -/
def isDownstreamCall (e : Event) : Bool :=
  isHealthQuery e || isDirectoryCall e || isShellCall e

/-- The event belongs to the remediation of a target group after its health
query was sent: anything but the decode log, the health query itself and the
two closing log lines of a dimension and of a record. -/
def isRemediationEvent : Event → Bool
  | .logDecodeError _ => false
  | .describeTargetHealth _ _ => false
  | .logResource _ _ => false
  | .logRegion _ => false
  | _ => true

/-- The dimension carries the target-group marker. -/
def isTargetGroup (d : Dimension) : Bool :=
  decide (d.Name = "TargetGroup")

/-- The identifiers expected for the target-group dimensions of a list, in
order: region, the fixed account id and the dimension value. -/
def targetGroupArns (region : String) (dims : List Dimension) : List String :=
  (dims.filter isTargetGroup).map fun d =>
    "arn:aws:elasticloadbalancing:" ++ region ++ ":197542431507:" ++ d.Value

/-- The target-group identifier of a health query. -/
def healthQueryArn : Event → Option String
  | .describeTargetHealth _ arn => some arn
  | _ => none

/-- The target-group identifiers passed to the health query, in order. -/
def healthQueries (t : List Event) : List String :=
  t.filterMap healthQueryArn

/-- What the remote command runner does on the network: it connects to an
address, it runs a command. -/
inductive ShellStep where
  | connect (addr : String)
  | command (cmd : String)
  deriving DecidableEq, Repr

/-- The step of a remote-shell event: `ssh.Dial` connects, `session.Run`
runs a command. -/
def shellStep : Event → Option ShellStep
  | .dial _ addr _ => some (.connect addr)
  | .run _ cmd => some (.command cmd)
  | _ => none

/-- The connections made and commands run, in order. -/
def shellSteps (t : List Event) : List ShellStep :=
  t.filterMap shellStep

/-- The name and value of a dimension log line. -/
def resourceLog : Event → Option (String × String)
  | .logResource name value => some (name, value)
  | _ => none

/-- The name/value pairs of the dimension log lines (main.go 121), in order. -/
def resourceLogs (t : List Event) : List (String × String) :=
  t.filterMap resourceLog

/-- The content of `snsMessage` after the decode of each record in turn,
starting from the content `m`. -/
def decodedStates (w : World) : SNSMessage → List SNSEventRecord → List SNSMessage
  | _, [] => []
  | m, record :: rest =>
    (w.Unmarshal record.SNS.Message m).2 ::
      decodedStates w (w.Unmarshal record.SNS.Message m).2 rest

/-- Every event of the run satisfies `P`. -/
def Exec.Only {α : Type} (P : Event → Prop) (x : Exec α) : Prop :=
  ∀ e ∈ x.trace, P e

/-- The record of a target whose pointers are all set. -/
def mkTarget (id state : String) : Option TargetHealthDescription :=
  some ⟨some ⟨some id⟩, some ⟨some state⟩⟩

/-- The steps of remediating one record of the health response: stop then
start at the resolved address for an unhealthy one, nothing otherwise. -/
def expectedSteps (w : World) (g : Globals) (d : Option TargetHealthDescription) :
    List ShellStep :=
  match d with
  | some ⟨some ⟨some id⟩, some ⟨some state⟩⟩ =>
    if state = "unhealthy" then
      match (getInstanceIpByInstanceId w g id).outcome with
      | .returned ip =>
        [.connect (ip ++ ":22"), .command g.applicationStopCommand,
         .connect (ip ++ ":22"), .command g.applicationStartCommand]
      | .stopped _ => []
    else []
  | _ => []

/-! ## Sample inputs -/

/-- A configuration as `main` would load it, with some key material. -/
def sampleGlobals : Globals :=
  ⟨"systemctl start app", "systemctl stop app", "us-east-1", "ec2-user", "PRIVATE KEY"⟩

/-- An alarm payload with a target-group dimension and one other dimension. -/
def alarmMessage : String :=
  "\x7b\"Region\":\"US East (N. Virginia)\",\"Trigger\":\x7b\"Dimensions\":[\x7b\"value\":\"targetgroup/app/abc123\",\"name\":\"TargetGroup\"\x7d,\x7b\"value\":\"app/lb/def456\",\"name\":\"LoadBalancer\"\x7d]\x7d\x7d"

/-- An alarm payload whose trigger has no `Dimensions` key. -/
def noDimensionsMessage : String :=
  "\x7b\"Region\":\"EU (Ireland)\",\"Trigger\":\x7b\"MetricName\":\"UnHealthyHostCount\"\x7d\x7d"

/-- An alarm payload with two target-group dimensions. -/
def twoGroupsMessage : String :=
  "\x7b\"Trigger\":\x7b\"Dimensions\":[\x7b\"value\":\"targetgroup/app/abc123\",\"name\":\"TargetGroup\"\x7d,\x7b\"value\":\"targetgroup/web/def456\",\"name\":\"TargetGroup\"\x7d]\x7d\x7d"

/-- A text that is not JSON. -/
def malformedMessage : String := "not json"

/-- A world for the sample inputs.  `Unmarshal` follows `encoding/json`: a
text that is not JSON is rejected before the target is touched, and a key that
is absent from the text leaves its field as it was.  The health query knows one
target group with three targets, the directory knows the two unhealthy ones,
every connection opens, and the stop command exits with an error. -/
def sampleWorld : World where
  Unmarshal := fun data target =>
    if data = alarmMessage then
      (none, { target with
        Region := "US East (N. Virginia)"
        Trigger := { target.Trigger with
          Dimensions := [⟨"targetgroup/app/abc123", "TargetGroup"⟩,
            ⟨"app/lb/def456", "LoadBalancer"⟩] } })
    else if data = twoGroupsMessage then
      (none, { target with
        Trigger := { target.Trigger with
          Dimensions := [⟨"targetgroup/app/abc123", "TargetGroup"⟩,
            ⟨"targetgroup/web/def456", "TargetGroup"⟩] } })
    else if data = noDimensionsMessage then
      (none, { target with
        Region := "EU (Ireland)"
        Trigger := { target.Trigger with MetricName := "UnHealthyHostCount" } })
    else
      (some "invalid character 'o' in literal null (expecting 'u')", target)
  DescribeTargetHealth := fun _ arn =>
    if arn = "arn:aws:elasticloadbalancing:us-east-1:197542431507:targetgroup/app/abc123" then
      (some ⟨[mkTarget "i-0000" "healthy", mkTarget "i-0001" "unhealthy",
        mkTarget "i-0002" "unhealthy"]⟩, none)
    else
      (some ⟨[]⟩, some (.aws "TargetGroupNotFound" "TargetGroupNotFound: no such group"))
  DescribeInstances := fun _ id =>
    if id = "i-0001" then (some ⟨[some ⟨[some ⟨some "10.0.0.5"⟩]⟩]⟩, none)
    else if id = "i-0002" then (some ⟨[some ⟨[some ⟨some "10.0.0.6"⟩]⟩]⟩, none)
    else (some ⟨[]⟩, some (.aws "InvalidInstanceID.NotFound" "InvalidInstanceID.NotFound: no such instance"))
  ParsePrivateKey := fun key => (some ⟨key⟩, none)
  Dial := fun _ _ _ => (some ⟨1⟩, none)
  NewSession := fun conn => (some ⟨conn.handle⟩, none)
  Run := fun _ cmd =>
    if cmd = "systemctl stop app" then ("stopping\n", some "Process exited with status 1")
    else ("started\n", none)

/-- The sample world with a directory that answers without error and without
any reservation. -/
def emptyDirectoryWorld : World :=
  { sampleWorld with DescribeInstances := fun _ _ => (some ⟨[]⟩, none) }

/-- The sample world with a directory that answers without error with one
reservation holding no instance. -/
def emptyReservationWorld : World :=
  { sampleWorld with DescribeInstances := fun _ _ => (some ⟨[some ⟨[]⟩]⟩, none) }

/-- The sample world with a directory that always fails. -/
def directoryErrorWorld : World :=
  { sampleWorld with
    DescribeInstances := fun _ _ => (none, some (.plain "RequestError: send request failed")) }

/-- The sample world with key material that does not parse. -/
def badKeyWorld : World :=
  { sampleWorld with ParsePrivateKey := fun _ => (none, some "ssh: no key found") }

/-- An event of one record carrying the sample alarm. -/
def alarmEvent : SNSEvent := ⟨[⟨⟨alarmMessage⟩⟩]⟩

/-- An event of two records: the sample alarm, then a text that is not JSON. -/
def malformedSecondEvent : SNSEvent := ⟨[⟨⟨alarmMessage⟩⟩, ⟨⟨malformedMessage⟩⟩]⟩

/-- An event of two records: the sample alarm, then an alarm whose trigger has
no `Dimensions` key. -/
def noDimensionsSecondEvent : SNSEvent := ⟨[⟨⟨alarmMessage⟩⟩, ⟨⟨noDimensionsMessage⟩⟩]⟩

/-- The dimensions a record carries: what its decode leaves in a fresh
`SNSMessage`. -/
def ownDimensions (w : World) (record : SNSEventRecord) : List Dimension :=
  (w.Unmarshal record.SNS.Message SNSMessage.zero).2.Trigger.Dimensions

/-- Starting from the content `m` of `snsMessage`, the decode of each record
in turn leaves the dimensions of that record in `snsMessage`. -/
def decodesOwn (w : World) : SNSMessage → List SNSEventRecord → Prop
  | _, [] => True
  | m, record :: rest =>
    (w.Unmarshal record.SNS.Message m).2.Trigger.Dimensions = ownDimensions w record
      ∧ decodesOwn w (w.Unmarshal record.SNS.Message m).2 rest

/-- The name/value pairs of the dimensions held in `snsMessage` after the
decode of each record in turn. -/
def expectedResourceLogs (w : World) (records : List SNSEventRecord) :
    List (String × String) :=
  (decodedStates w SNSMessage.zero records).flatMap fun m =>
    m.Trigger.Dimensions.map fun d => (d.Name, d.Value)

set_option maxRecDepth 100000

/-! ## Sequencing lemmas -/

@[simp] theorem Exec.bind_eq {α β : Type} (x : Exec α) (k : α → Exec β) :
    (x >>= k) = Exec.andThen x k := rfl

@[simp] theorem Exec.pure_eq {α : Type} (a : α) : (pure a : Exec α) = Exec.ret a := rfl

theorem Exec.andThen_of_returned {α β : Type} (x : Exec α) (k : α → Exec β) (a : α)
    (h : x.outcome = .returned a) :
    Exec.andThen x k = ⟨x.trace ++ (k a).trace, (k a).outcome⟩ := by
  unfold Exec.andThen
  rw [h]

theorem Exec.andThen_of_stopped {α β : Type} (x : Exec α) (k : α → Exec β) (f : Fault)
    (h : x.outcome = .stopped f) :
    Exec.andThen x k = ⟨x.trace, .stopped f⟩ := by
  unfold Exec.andThen
  rw [h]

@[simp] theorem Exec.ret_andThen {α β : Type} (a : α) (k : α → Exec β) :
    Exec.andThen (Exec.ret a) k = k a := by
  simp [Exec.andThen, Exec.ret]

@[simp] theorem Exec.stop_andThen {α β : Type} (f : Fault) (k : α → Exec β) :
    Exec.andThen (Exec.stop f) k = Exec.stop f := by
  simp [Exec.andThen, Exec.stop]

@[simp] theorem Exec.emit_andThen_trace {β : Type} (e : Event) (k : Unit → Exec β) :
    (Exec.andThen (Exec.emit e) k).trace = e :: (k ()).trace := by
  simp [Exec.andThen, Exec.emit]

@[simp] theorem Exec.emit_andThen_outcome {β : Type} (e : Event) (k : Unit → Exec β) :
    (Exec.andThen (Exec.emit e) k).outcome = (k ()).outcome := by
  simp [Exec.andThen, Exec.emit]

theorem Exec.returned_of_andThen {α β : Type} (x : Exec α) (k : α → Exec β) (b : β)
    (h : (Exec.andThen x k).outcome = .returned b) :
    ∃ a, x.outcome = .returned a ∧ (k a).outcome = .returned b := by
  unfold Exec.andThen at h
  cases hx : x.outcome with
  | returned a =>
    rw [hx] at h
    exact ⟨a, rfl, h⟩
  | stopped f =>
    rw [hx] at h
    cases h

theorem Exec.only_ret {α : Type} (P : Event → Prop) (a : α) : (Exec.ret a).Only P := by
  intro e he
  simp [Exec.ret] at he

theorem Exec.only_stop {α : Type} (P : Event → Prop) (f : Fault) :
    (Exec.stop f : Exec α).Only P := by
  intro e he
  simp [Exec.stop] at he

theorem Exec.only_emit (P : Event → Prop) (e : Event) (h : P e) : (Exec.emit e).Only P := by
  intro e1 he
  simp [Exec.emit] at he
  subst he
  exact h

theorem Exec.only_andThen {α β : Type} (P : Event → Prop) (x : Exec α) (k : α → Exec β)
    (hx : x.Only P) (hk : ∀ a, (k a).Only P) : (Exec.andThen x k).Only P := by
  intro e he
  cases hxo : x.outcome with
  | returned a =>
    rw [Exec.andThen_of_returned x k a hxo] at he
    simp only [List.mem_append] at he
    rcases he with he | he
    · exact hx e he
    · exact hk a e he
  | stopped f =>
    rw [Exec.andThen_of_stopped x k f hxo] at he
    exact hx e he

theorem Exec.only_deref {α : Type} (P : Event → Prop) (o : Option α) :
    (Exec.deref o).Only P := by
  cases o
  · exact Exec.only_stop P _
  · exact Exec.only_ret P _

theorem Exec.only_index {α : Type} (P : Event → Prop) (xs : List α) (i : Nat) :
    (Exec.index xs i).Only P := by
  unfold Exec.index
  cases xs.get? i
  · exact Exec.only_stop P _
  · exact Exec.only_ret P _

theorem Exec.only_forEach {α : Type} (P : Event → Prop) (xs : List α) (body : α → Exec Unit)
    (h : ∀ a, (body a).Only P) : (Exec.forEach xs body).Only P := by
  induction xs with
  | nil => exact Exec.only_ret P _
  | cons x rest ih => exact Exec.only_andThen P _ _ (h x) (fun _ => ih)

/-- The trace of `executeCmd` when the connection and the session open. -/
theorem executeCmd_of_open (w : World) (cmd hostname : String) (config : ClientConfig)
    (conn : Client) (session : Session)
    (hdial : (w.Dial "tcp" (hostname ++ ":22") config).1 = some conn)
    (hsession : (w.NewSession conn).1 = some session) :
    executeCmd w cmd hostname config =
      ⟨[.dial "tcp" (hostname ++ ":22") config, .newSession conn, .run session cmd,
        .close session], .returned (hostname ++ ": " ++ (w.Run session cmd).1)⟩ := by
  simp [executeCmd, hdial, hsession, Exec.andThen, Exec.emit, Exec.deref, Exec.ret]

/-! ## The claims -/

/-- C9: for every command, address and captured standard output of a session
that opened, `executeCmd` returns the address followed by the captured output
in one string (the address, then `": "`, then the output), so that the address
starts the result and the output ends it, whatever error the command returned;
it dials the address with `":22"` appended, once, and runs the command once. -/
theorem executeCmd_result (w : World) (cmd hostname : String) (config : ClientConfig)
    (conn : Client) (session : Session) (o : String) (runErr : Option String)
    (hdial : (w.Dial "tcp" (hostname ++ ":22") config).1 = some conn)
    (hsession : (w.NewSession conn).1 = some session)
    (hrun : w.Run session cmd = (o, runErr)) :
    (executeCmd w cmd hostname config).outcome = .returned (hostname ++ ": " ++ o)
    ∧ hostname.data <+: (hostname ++ ": " ++ o).data
    ∧ o.data <:+ (hostname ++ ": " ++ o).data
    ∧ (executeCmd w cmd hostname config).trace =
        [.dial "tcp" (hostname ++ ":22") config, .newSession conn, .run session cmd,
          .close session]
    ∧ shellSteps (executeCmd w cmd hostname config).trace =
        [.connect (hostname ++ ":22"), .command cmd] := by
  rw [executeCmd_of_open w cmd hostname config conn session hdial hsession, hrun]
  refine ⟨rfl, ?_, ?_, rfl, rfl⟩
  · exact ⟨(": " ++ o).data, by simp [String.data_append]⟩
  · exact ⟨(hostname ++ ": ").data, by simp [String.data_append]⟩

/-- Witness for C9: the stop command at 10.0.0.5 in the sample world, where the
command exits with an error. -/
theorem executeCmd_result_witness :
    (executeCmd sampleWorld "systemctl stop app" "10.0.0.5" ⟨"ec2-user", none, true⟩).outcome
        = .returned ("10.0.0.5" ++ ": " ++ "stopping\n")
    ∧ "10.0.0.5".data <+: ("10.0.0.5" ++ ": " ++ "stopping\n").data
    ∧ "stopping\n".data <:+ ("10.0.0.5" ++ ": " ++ "stopping\n").data
    ∧ (executeCmd sampleWorld "systemctl stop app" "10.0.0.5" ⟨"ec2-user", none, true⟩).trace =
        [.dial "tcp" ("10.0.0.5" ++ ":22") ⟨"ec2-user", none, true⟩, .newSession ⟨1⟩,
          .run ⟨1⟩ "systemctl stop app", .close ⟨1⟩]
    ∧ shellSteps
        (executeCmd sampleWorld "systemctl stop app" "10.0.0.5" ⟨"ec2-user", none, true⟩).trace =
        [.connect ("10.0.0.5" ++ ":22"), .command "systemctl stop app"] :=
  executeCmd_result sampleWorld "systemctl stop app" "10.0.0.5" ⟨"ec2-user", none, true⟩
    ⟨1⟩ ⟨1⟩ "stopping\n" (some "Process exited with status 1") rfl rfl (by decide)

/-- C8: `getInstanceIpByInstanceId` returns the empty string whenever the
directory call returns an error, of either kind, after exactly one directory
call and one printed line; and when the call succeeds with one reservation
holding one instance it returns that instance's private address unchanged. -/
theorem getInstanceIpByInstanceId_result (w : World) (g : Globals) (instanceId : String) :
    (∀ out err, w.DescribeInstances g.defaultRegion instanceId = (out, some err) →
      getInstanceIpByInstanceId w g instanceId =
        ⟨[.describeInstances g.defaultRegion instanceId, .fmtPrintln err.Error],
          .returned ""⟩)
    ∧ (∀ addr, w.DescribeInstances g.defaultRegion instanceId
          = (some ⟨[some ⟨[some ⟨some addr⟩]⟩]⟩, none) →
      getInstanceIpByInstanceId w g instanceId =
        ⟨[.describeInstances g.defaultRegion instanceId], .returned addr⟩) := by
  constructor
  · intro out err h
    cases err <;>
      simp [getInstanceIpByInstanceId, h, Exec.andThen, Exec.emit, Exec.ret, SdkError.Error]
  · intro addr h
    simp [getInstanceIpByInstanceId, h, Exec.andThen, Exec.emit, Exec.ret, Exec.deref,
      Exec.index]

/-! ## What the remediation of a target group can emit -/

theorem logHealthError_only (err : Option SdkError) :
    (logHealthError err).Only (fun e => isRemediationEvent e = true) := by
  unfold logHealthError
  repeat (first
    | exact Exec.only_ret _ _
    | exact Exec.only_emit _ _ rfl
    | split)

theorem executeCmd_only (w : World) (cmd hostname : String) (config : ClientConfig) :
    (executeCmd w cmd hostname config).Only
      (fun e => isRemediationEvent e = true ∧ isDirectoryCall e = false) := by
  unfold executeCmd
  simp only [Exec.bind_eq, Exec.pure_eq]
  repeat (first
    | exact Exec.only_ret _ _
    | exact Exec.only_deref _ _
    | exact Exec.only_emit _ _ ⟨rfl, rfl⟩
    | (apply Exec.only_andThen)
    | intro _)

theorem getInstanceIpByInstanceId_only (w : World) (g : Globals) (id : String) :
    (getInstanceIpByInstanceId w g id).Only
      (fun e => isRemediationEvent e = true ∧ isShellCall e = false) := by
  unfold getInstanceIpByInstanceId
  simp only [Exec.bind_eq, Exec.pure_eq]
  repeat (first
    | exact Exec.only_ret _ _
    | exact Exec.only_deref _ _
    | exact Exec.only_index _ _ _
    | exact Exec.only_emit _ _ ⟨rfl, rfl⟩
    | split
    | (apply Exec.only_andThen)
    | intro _)

theorem Exec.Only.mono {α : Type} {P Q : Event → Prop} {x : Exec α} (h : x.Only P)
    (hPQ : ∀ e, P e → Q e) : x.Only Q :=
  fun e he => hPQ e (h e he)

theorem handlerTarget_only (w : World) (g : Globals) (d : Option TargetHealthDescription) :
    (handlerTarget w g d).Only (fun e => isRemediationEvent e = true) := by
  unfold handlerTarget
  simp only [Exec.bind_eq, Exec.pure_eq]
  repeat (first
    | exact Exec.only_ret _ _
    | exact Exec.only_stop _ _
    | exact Exec.only_deref _ _
    | exact (executeCmd_only _ _ _ _).mono (fun _ h => h.1)
    | exact (getInstanceIpByInstanceId_only _ _ _).mono (fun _ h => h.1)
    | exact Exec.only_emit _ _ rfl
    | split
    | (apply Exec.only_andThen)
    | intro _)

/-- The branch for a target group sends the health query first, with the
identifier built from the configured region and the dimension value; all that
follows belongs to the remediation. -/
theorem handlerTargetGroup_trace (w : World) (g : Globals) (resource : Dimension) :
    ∃ t, (handlerTargetGroup w g resource).trace =
        .describeTargetHealth g.defaultRegion
          ("arn:aws:elasticloadbalancing:" ++ g.defaultRegion ++ ":197542431507:" ++
            resource.Value) :: t
      ∧ ∀ e ∈ t, isRemediationEvent e = true := by
  unfold handlerTargetGroup
  simp only [Exec.bind_eq, Exec.pure_eq, Exec.emit_andThen_trace]
  refine ⟨_, rfl, ?_⟩
  have : Exec.Only (fun e => isRemediationEvent e = true)
      (match w.DescribeTargetHealth g.defaultRegion
          ("arn:aws:elasticloadbalancing:" ++ g.defaultRegion ++ ":197542431507:" ++
            resource.Value) with
        | (resp, err) =>
          (logHealthError err).andThen fun _ =>
            (Exec.deref resp).andThen fun out =>
              if 0 < out.TargetHealthDescriptions.length then
                Exec.forEach out.TargetHealthDescriptions (handlerTarget w g)
              else Exec.ret ()) := by
    split
    refine Exec.only_andThen _ _ _ (logHealthError_only _) ?_
    intro _
    refine Exec.only_andThen (fun e => isRemediationEvent e = true) _ _
      (Exec.only_deref _ _) ?_
    intro out
    split
    · exact Exec.only_forEach _ _ _ (handlerTarget_only w g)
    · exact Exec.only_ret _ _
  exact this

/-! ## Dimensions -/

theorem healthQueries_of_remediation (t : List Event)
    (h : ∀ e ∈ t, isRemediationEvent e = true) : healthQueries t = [] := by
  unfold healthQueries
  rw [List.filterMap_eq_nil_iff]
  intro e he
  have := h e he
  cases e <;> simp_all [isRemediationEvent, healthQueryArn]

theorem resourceLogs_of_remediation (t : List Event)
    (h : ∀ e ∈ t, isRemediationEvent e = true) : resourceLogs t = [] := by
  unfold resourceLogs
  rw [List.filterMap_eq_nil_iff]
  intro e he
  have := h e he
  cases e <;> simp_all [isRemediationEvent, resourceLog]

theorem handlerDimension_other (w : World) (g : Globals) (resource : Dimension)
    (h : resource.Name ≠ "TargetGroup") :
    handlerDimension w g resource =
      ⟨[.logResource resource.Name resource.Value], .returned ()⟩ := by
  simp [handlerDimension, h, Exec.emit]

theorem handlerDimension_targetGroup (w : World) (g : Globals) (resource : Dimension)
    (h : resource.Name = "TargetGroup") :
    ∃ t, (∀ e ∈ t, isRemediationEvent e = true) ∧
      (((handlerDimension w g resource).outcome = .returned () ∧
          (handlerDimension w g resource).trace =
            .describeTargetHealth g.defaultRegion
              ("arn:aws:elasticloadbalancing:" ++ g.defaultRegion ++ ":197542431507:" ++
                resource.Value) :: (t ++ [.logResource resource.Name resource.Value]))
        ∨ (∃ f, (handlerDimension w g resource).outcome = .stopped f ∧
          (handlerDimension w g resource).trace =
            .describeTargetHealth g.defaultRegion
              ("arn:aws:elasticloadbalancing:" ++ g.defaultRegion ++ ":197542431507:" ++
                resource.Value) :: t)) := by
  obtain ⟨t, ht, hrem⟩ := handlerTargetGroup_trace w g resource
  refine ⟨t, hrem, ?_⟩
  unfold handlerDimension
  simp only [if_pos h, Exec.bind_eq]
  cases hx : (handlerTargetGroup w g resource).outcome with
  | returned u =>
    left
    rw [Exec.andThen_of_returned _ _ u hx, ht]
    simp [Exec.emit]
  | stopped f =>
    right
    rw [Exec.andThen_of_stopped _ _ f hx, ht]
    exact ⟨f, rfl, rfl⟩

theorem healthQueries_handlerDimension (w : World) (g : Globals) (resource : Dimension) :
    healthQueries (handlerDimension w g resource).trace =
      targetGroupArns g.defaultRegion [resource] := by
  by_cases h : resource.Name = "TargetGroup"
  · obtain ⟨t, hrem, hcase⟩ := handlerDimension_targetGroup w g resource h
    have ht := healthQueries_of_remediation t hrem
    unfold healthQueries at ht
    rcases hcase with ⟨_, htr⟩ | ⟨f, _, htr⟩ <;>
      simp [htr, healthQueries, healthQueryArn, targetGroupArns, isTargetGroup, h, ht,
        List.filterMap_append]
  · rw [handlerDimension_other w g resource h]
    simp [healthQueries, healthQueryArn, targetGroupArns, isTargetGroup, h]

theorem resourceLogs_handlerDimension (w : World) (g : Globals) (resource : Dimension) :
    resourceLogs (handlerDimension w g resource).trace <+: [(resource.Name, resource.Value)]
    ∧ ((handlerDimension w g resource).outcome = .returned () →
      resourceLogs (handlerDimension w g resource).trace = [(resource.Name, resource.Value)]) := by
  by_cases h : resource.Name = "TargetGroup"
  · obtain ⟨t, hrem, hcase⟩ := handlerDimension_targetGroup w g resource h
    have ht := resourceLogs_of_remediation t hrem
    unfold resourceLogs at ht
    rcases hcase with ⟨hout, htr⟩ | ⟨f, hout, htr⟩
    · simp [htr, resourceLogs, resourceLog, ht, List.filterMap_append]
    · simp [htr, hout, resourceLogs, resourceLog, ht]
  · rw [handlerDimension_other w g resource h]
    simp [resourceLogs, resourceLog]

/-- A projection of the trace of a loop is the concatenation of the projections
of its rounds, cut short when a round stops. -/
theorem Exec.forEach_filterMap {α β : Type} (p : Event → Option β) (body : α → Exec Unit)
    (f : α → List β)
    (h1 : ∀ x, (body x).trace.filterMap p <+: f x)
    (h2 : ∀ x, (body x).outcome = .returned () → (body x).trace.filterMap p = f x)
    (xs : List α) :
    (Exec.forEach xs body).trace.filterMap p <+: xs.flatMap f
    ∧ ((Exec.forEach xs body).outcome = .returned () →
      (Exec.forEach xs body).trace.filterMap p = xs.flatMap f) := by
  induction xs with
  | nil => simp [Exec.forEach, Exec.ret]
  | cons x rest ih =>
    unfold Exec.forEach
    cases hx : (body x).outcome with
    | returned u =>
      rw [Exec.andThen_of_returned _ _ u hx]
      simp only [List.filterMap_append, List.flatMap_cons, h2 x hx]
      refine ⟨(List.prefix_append_right_inj _).2 ih.1, fun hr => ?_⟩
      rw [ih.2 hr]
    | stopped f0 =>
      rw [Exec.andThen_of_stopped _ _ f0 hx]
      simp only [List.flatMap_cons]
      refine ⟨(h1 x).trans (List.prefix_append _ _), fun hr => ?_⟩
      cases hr

theorem targetGroupArns_flatMap (region : String) (dims : List Dimension) :
    dims.flatMap (fun d => targetGroupArns region [d]) = targetGroupArns region dims := by
  induction dims with
  | nil => rfl
  | cons d rest ih =>
    rw [List.flatMap_cons, ih]
    by_cases h : isTargetGroup d = true <;> simp [targetGroupArns, List.filter_cons, h]

theorem healthQueries_scan (w : World) (g : Globals) (dims : List Dimension) :
    healthQueries (Exec.forEach dims (handlerDimension w g)).trace <+:
      targetGroupArns g.defaultRegion dims
    ∧ ((Exec.forEach dims (handlerDimension w g)).outcome = .returned () →
      healthQueries (Exec.forEach dims (handlerDimension w g)).trace =
        targetGroupArns g.defaultRegion dims) := by
  have := Exec.forEach_filterMap healthQueryArn (handlerDimension w g)
    (fun d => targetGroupArns g.defaultRegion [d])
    (fun d => by
      have := healthQueries_handlerDimension w g d
      unfold healthQueries at this
      rw [this])
    (fun d _ => healthQueries_handlerDimension w g d) dims
  rw [targetGroupArns_flatMap] at this
  exact this

theorem flatMap_singleton_eq_map {α β : Type} (f : α → β) (xs : List α) :
    xs.flatMap (fun x => [f x]) = xs.map f := by
  induction xs with
  | nil => rfl
  | cons x rest ih => simp [List.flatMap_cons, ih]

theorem resourceLogs_scan (w : World) (g : Globals) (dims : List Dimension) :
    resourceLogs (Exec.forEach dims (handlerDimension w g)).trace <+:
      dims.map (fun d => (d.Name, d.Value))
    ∧ ((Exec.forEach dims (handlerDimension w g)).outcome = .returned () →
      resourceLogs (Exec.forEach dims (handlerDimension w g)).trace =
        dims.map (fun d => (d.Name, d.Value))) := by
  have := Exec.forEach_filterMap resourceLog (handlerDimension w g)
    (fun d => [(d.Name, d.Value)])
    (fun d => (resourceLogs_handlerDimension w g d).1)
    (fun d => (resourceLogs_handlerDimension w g d).2) dims
  rw [flatMap_singleton_eq_map] at this
  exact this

/-! ## Records -/

/-- The run of one record, in terms of the decoded content of `snsMessage`. -/
theorem handlerRecord_eq (w : World) (g : Globals) (m : SNSMessage) (record : SNSEventRecord) :
    handlerRecord w g m record =
      Exec.andThen
        (match (w.Unmarshal record.SNS.Message m).1 with
          | some text => Exec.emit (.logDecodeError text)
          | none => Exec.ret ())
        (fun _ => Exec.andThen
          (if 0 < (w.Unmarshal record.SNS.Message m).2.Trigger.Dimensions.length then
            Exec.forEach (w.Unmarshal record.SNS.Message m).2.Trigger.Dimensions
              (handlerDimension w g)
          else Exec.ret ())
          (fun _ => Exec.andThen
            (Exec.emit (.logRegion (w.Unmarshal record.SNS.Message m).2.Region))
            (fun _ => Exec.ret (w.Unmarshal record.SNS.Message m).2))) := by
  unfold handlerRecord
  rcases h : w.Unmarshal record.SNS.Message m with ⟨err, m1⟩
  cases err <;> by_cases hl : 0 < m1.Trigger.Dimensions.length <;> simp [hl]

/-- The guard `len(...) > 0` in front of a loop changes nothing. -/
theorem Exec.guarded_forEach {α : Type} (xs : List α) (body : α → Exec Unit) :
    (if 0 < xs.length then Exec.forEach xs body else Exec.ret ()) = Exec.forEach xs body := by
  cases xs with
  | nil => simp [Exec.forEach]
  | cons x rest => simp

/-- The trace of one record: the decode log if any, the scan of the dimensions
held after the decode, and the region line if the scan returned. -/
theorem handlerRecord_trace (w : World) (g : Globals) (m : SNSMessage)
    (record : SNSEventRecord) :
    ∃ front back,
      (∀ e ∈ front, ∃ text, e = .logDecodeError text) ∧
      (∀ e ∈ back, ∃ region, e = .logRegion region) ∧
      (handlerRecord w g m record).trace =
        front ++ (Exec.forEach (w.Unmarshal record.SNS.Message m).2.Trigger.Dimensions
          (handlerDimension w g)).trace ++ back ∧
      ((handlerRecord w g m record).outcome =
          .returned (w.Unmarshal record.SNS.Message m).2 ∧
          (Exec.forEach (w.Unmarshal record.SNS.Message m).2.Trigger.Dimensions
            (handlerDimension w g)).outcome = .returned ()
        ∨ ∃ f, (handlerRecord w g m record).outcome = .stopped f ∧
          (Exec.forEach (w.Unmarshal record.SNS.Message m).2.Trigger.Dimensions
            (handlerDimension w g)).outcome = .stopped f) := by
  rw [handlerRecord_eq, Exec.guarded_forEach]
  have hfront : ∃ front, (∀ e ∈ front, ∃ text, e = Event.logDecodeError text) ∧
      (match (w.Unmarshal record.SNS.Message m).1 with
        | some text => Exec.emit (.logDecodeError text)
        | none => Exec.ret ()) = ⟨front, .returned ()⟩ := by
    cases (w.Unmarshal record.SNS.Message m).1 with
    | none => exact ⟨[], by simp, rfl⟩
    | some text => exact ⟨[.logDecodeError text], by simp, rfl⟩
  obtain ⟨front, hfront, hdec⟩ := hfront
  rw [hdec]
  cases hs : (Exec.forEach (w.Unmarshal record.SNS.Message m).2.Trigger.Dimensions
      (handlerDimension w g)).outcome with
  | returned u =>
    refine ⟨front, [.logRegion (w.Unmarshal record.SNS.Message m).2.Region], hfront,
      by simp, ?_, ?_⟩
    · rw [Exec.andThen_of_returned _ _ () rfl, Exec.andThen_of_returned _ _ u hs]
      simp [Exec.andThen, Exec.emit, Exec.ret]
    · left
      rw [Exec.andThen_of_returned _ _ () rfl, Exec.andThen_of_returned _ _ u hs]
      simp [Exec.andThen, Exec.emit, Exec.ret]
  | stopped f =>
    refine ⟨front, [], hfront, by simp, ?_, ?_⟩
    · rw [Exec.andThen_of_returned _ _ () rfl, Exec.andThen_of_stopped _ _ f hs]
      simp
    · right
      rw [Exec.andThen_of_returned _ _ () rfl, Exec.andThen_of_stopped _ _ f hs]
      exact ⟨f, rfl, rfl⟩

theorem healthQueries_handlerRecord (w : World) (g : Globals) (m : SNSMessage)
    (record : SNSEventRecord) :
    healthQueries (handlerRecord w g m record).trace =
      healthQueries (Exec.forEach (w.Unmarshal record.SNS.Message m).2.Trigger.Dimensions
        (handlerDimension w g)).trace := by
  obtain ⟨front, back, hfront, hback, htrace, _⟩ := handlerRecord_trace w g m record
  have h1 : healthQueries front = [] := by
    unfold healthQueries
    rw [List.filterMap_eq_nil_iff]
    intro e he
    obtain ⟨text, rfl⟩ := hfront e he
    rfl
  have h2 : healthQueries back = [] := by
    unfold healthQueries
    rw [List.filterMap_eq_nil_iff]
    intro e he
    obtain ⟨region, rfl⟩ := hback e he
    rfl
  unfold healthQueries at h1 h2 ⊢
  rw [htrace, List.filterMap_append, List.filterMap_append, h1, h2]
  simp

theorem resourceLogs_handlerRecord (w : World) (g : Globals) (m : SNSMessage)
    (record : SNSEventRecord) :
    resourceLogs (handlerRecord w g m record).trace =
      resourceLogs (Exec.forEach (w.Unmarshal record.SNS.Message m).2.Trigger.Dimensions
        (handlerDimension w g)).trace := by
  obtain ⟨front, back, hfront, hback, htrace, _⟩ := handlerRecord_trace w g m record
  have h1 : resourceLogs front = [] := by
    unfold resourceLogs
    rw [List.filterMap_eq_nil_iff]
    intro e he
    obtain ⟨text, rfl⟩ := hfront e he
    rfl
  have h2 : resourceLogs back = [] := by
    unfold resourceLogs
    rw [List.filterMap_eq_nil_iff]
    intro e he
    obtain ⟨region, rfl⟩ := hback e he
    rfl
  unfold resourceLogs at h1 h2 ⊢
  rw [htrace, List.filterMap_append, List.filterMap_append, h1, h2]
  simp

theorem forEach_other_dimensions (w : World) (g : Globals) (dims : List Dimension)
    (h : ∀ d ∈ dims, d.Name ≠ "TargetGroup") :
    Exec.forEach dims (handlerDimension w g) =
      ⟨dims.map (fun d => .logResource d.Name d.Value), .returned ()⟩ := by
  induction dims with
  | nil => rfl
  | cons d rest ih =>
    unfold Exec.forEach
    rw [handlerDimension_other w g d (h d (by simp)),
      Exec.andThen_of_returned _ _ () rfl, ih (fun x hx => h x (by simp [hx]))]
    simp

/-- C7: for every configured default region and every dimension named
`TargetGroup`, the identifier passed to the health query is the text
`arn:aws:elasticloadbalancing:`, the region, `:197542431507:` and the dimension
value, in that order and with nothing else; the query is the first thing the
branch does and the only health query of the dimension.  The identifiers
queried for a record are those of the target-group dimensions held after its
decode, in order (all of them when the record is processed to its end): the
`Region` field of the notification plays no part. -/
theorem handler_targetGroupArn (w : World) (g : Globals) :
    (∀ resource : Dimension, resource.Name = "TargetGroup" →
      (handlerDimension w g resource).trace.head? =
          some (.describeTargetHealth g.defaultRegion
            ("arn:aws:elasticloadbalancing:" ++ g.defaultRegion ++ ":197542431507:" ++
              resource.Value))
      ∧ healthQueries (handlerDimension w g resource).trace =
          ["arn:aws:elasticloadbalancing:" ++ g.defaultRegion ++ ":197542431507:" ++
            resource.Value])
    ∧ (∀ m record,
      healthQueries (handlerRecord w g m record).trace <+:
          targetGroupArns g.defaultRegion
            (w.Unmarshal record.SNS.Message m).2.Trigger.Dimensions
      ∧ (∀ m1, (handlerRecord w g m record).outcome = .returned m1 →
        healthQueries (handlerRecord w g m record).trace =
          targetGroupArns g.defaultRegion
            (w.Unmarshal record.SNS.Message m).2.Trigger.Dimensions)) := by
  constructor
  · intro resource h
    constructor
    · obtain ⟨t, _, hcase⟩ := handlerDimension_targetGroup w g resource h
      rcases hcase with ⟨_, htr⟩ | ⟨f, _, htr⟩ <;> rw [htr] <;> rfl
    · rw [healthQueries_handlerDimension]
      simp [targetGroupArns, isTargetGroup, h]
  · intro m record
    rw [healthQueries_handlerRecord]
    refine ⟨(healthQueries_scan w g _).1, fun m1 hm => ?_⟩
    apply (healthQueries_scan w g _).2
    obtain ⟨_, _, _, _, _, hout⟩ := handlerRecord_trace w g m record
    rcases hout with ⟨_, hs⟩ | ⟨f, hf, _⟩
    · exact hs
    · rw [hf] at hm
      cases hm

/-- Witness for C7: the target-group dimension of the sample alarm, and the
record carrying it. -/
theorem handler_targetGroupArn_witness :
    ((handlerDimension sampleWorld sampleGlobals ⟨"targetgroup/app/abc123", "TargetGroup"⟩).trace.head?
        = some (.describeTargetHealth sampleGlobals.defaultRegion
            ("arn:aws:elasticloadbalancing:" ++ sampleGlobals.defaultRegion ++ ":197542431507:" ++
              "targetgroup/app/abc123"))
      ∧ healthQueries
          (handlerDimension sampleWorld sampleGlobals ⟨"targetgroup/app/abc123", "TargetGroup"⟩).trace
        = ["arn:aws:elasticloadbalancing:" ++ sampleGlobals.defaultRegion ++ ":197542431507:" ++
            "targetgroup/app/abc123"])
    ∧ (handlerRecord sampleWorld sampleGlobals SNSMessage.zero ⟨⟨alarmMessage⟩⟩).outcome
        = .returned (sampleWorld.Unmarshal alarmMessage SNSMessage.zero).2
    ∧ healthQueries (handlerRecord sampleWorld sampleGlobals SNSMessage.zero ⟨⟨alarmMessage⟩⟩).trace
        = targetGroupArns sampleGlobals.defaultRegion
            (sampleWorld.Unmarshal alarmMessage SNSMessage.zero).2.Trigger.Dimensions :=
  ⟨(handler_targetGroupArn sampleWorld sampleGlobals).1 ⟨"targetgroup/app/abc123", "TargetGroup"⟩ rfl,
    by decide,
    ((handler_targetGroupArn sampleWorld sampleGlobals).2 SNSMessage.zero ⟨⟨alarmMessage⟩⟩).2
      (sampleWorld.Unmarshal alarmMessage SNSMessage.zero).2 (by decide)⟩

/-! ## Remediation when nothing faults -/

theorem logHealthError_returned (err : Option SdkError) :
    (logHealthError err).outcome = .returned () := by
  unfold logHealthError
  repeat (first
    | rfl
    | split)

theorem shellSteps_of_no_shell (t : List Event) (h : ∀ e ∈ t, isShellCall e = false) :
    shellSteps t = [] := by
  unfold shellSteps
  rw [List.filterMap_eq_nil_iff]
  intro e he
  have := h e he
  cases e <;> simp_all [isShellCall, shellStep]

theorem shellSteps_logHealthError (err : Option SdkError) :
    shellSteps (logHealthError err).trace = [] := by
  unfold logHealthError
  repeat (first
    | rfl
    | split)

theorem shellSteps_getInstanceIpByInstanceId (w : World) (g : Globals) (id : String) :
    shellSteps (getInstanceIpByInstanceId w g id).trace = [] :=
  shellSteps_of_no_shell _ (fun e he => (getInstanceIpByInstanceId_only w g id e he).2)

/-- The remediation of one record whose pointers are set, when the key parses,
the connections open and the address resolution returns. -/
theorem handlerTarget_steps (w : World) (g : Globals) (id state : String)
    (hkey : (w.ParsePrivateKey g.pem).2 = none)
    (hdial : ∀ addr config, ∃ conn, (w.Dial "tcp" addr config).1 = some conn)
    (hsession : ∀ conn, ∃ session, (w.NewSession conn).1 = some session)
    (hip : state = "unhealthy" →
      ∃ ip, (getInstanceIpByInstanceId w g id).outcome = .returned ip) :
    (handlerTarget w g (mkTarget id state)).outcome = .returned ()
    ∧ shellSteps (handlerTarget w g (mkTarget id state)).trace =
        expectedSteps w g (mkTarget id state) := by
  by_cases hs : state = "unhealthy"
  · obtain ⟨ip, hip⟩ := hip hs
    rcases hk : w.ParsePrivateKey g.pem with ⟨signer, e⟩
    rw [hk] at hkey
    simp only at hkey
    subst hkey
    obtain ⟨conn, hconn⟩ := hdial (ip ++ ":22") ⟨g.osUser, signer, true⟩
    obtain ⟨session, hsess⟩ := hsession conn
    have hget := shellSteps_getInstanceIpByInstanceId w g id
    unfold shellSteps at hget
    unfold handlerTarget
    simp only [mkTarget, Exec.deref, Exec.bind_eq, Exec.pure_eq, Exec.ret_andThen, if_pos hs, hk]
    rw [Exec.andThen_of_returned _ _ ip hip]
    simp [executeCmd_of_open w _ ip _ conn session hconn hsess, Exec.andThen, Exec.emit,
      shellSteps, shellStep, expectedSteps, hs, hip, hget, List.filterMap_append]
  · unfold handlerTarget
    simp only [mkTarget, Exec.deref, Exec.bind_eq, Exec.pure_eq, Exec.ret_andThen, if_neg hs]
    simp [expectedSteps, shellSteps, Exec.ret, hs]

/-- A loop whose rounds all return: it returns, and a projection of its trace
is the concatenation of the projections of the rounds. -/
theorem Exec.forEach_of_returned {α β : Type} (p : Event → Option β) (body : α → Exec Unit)
    (f : α → List β) (xs : List α)
    (h : ∀ x ∈ xs, (body x).outcome = .returned () ∧ (body x).trace.filterMap p = f x) :
    (Exec.forEach xs body).outcome = .returned ()
    ∧ (Exec.forEach xs body).trace.filterMap p = xs.flatMap f := by
  induction xs with
  | nil => simp [Exec.forEach, Exec.ret]
  | cons x rest ih =>
    unfold Exec.forEach
    obtain ⟨hx, hp⟩ := h x (by simp)
    obtain ⟨hr, hq⟩ := ih (fun y hy => h y (by simp [hy]))
    rw [Exec.andThen_of_returned _ _ () hx]
    simp [hr, hq, hp, List.filterMap_append]

/-- The branch for a target group when nothing faults: it returns, and the
remote-shell steps are those expected for the records of the response, in
order. -/
theorem handlerTargetGroup_steps (w : World) (g : Globals) (resource : Dimension)
    (descs : List (Option TargetHealthDescription))
    (hresp : (w.DescribeTargetHealth g.defaultRegion
      ("arn:aws:elasticloadbalancing:" ++ g.defaultRegion ++ ":197542431507:" ++
        resource.Value)).1 = some ⟨descs⟩)
    (hkey : (w.ParsePrivateKey g.pem).2 = none)
    (hdial : ∀ addr config, ∃ conn, (w.Dial "tcp" addr config).1 = some conn)
    (hsession : ∀ conn, ∃ session, (w.NewSession conn).1 = some session)
    (hdescs : ∀ d ∈ descs, ∃ id state, d = mkTarget id state ∧
      (state = "unhealthy" →
        ∃ ip, (getInstanceIpByInstanceId w g id).outcome = .returned ip)) :
    (handlerTargetGroup w g resource).outcome = .returned ()
    ∧ shellSteps (handlerTargetGroup w g resource).trace =
        descs.flatMap (expectedSteps w g) := by
  have hloop := Exec.forEach_of_returned shellStep (handlerTarget w g) (expectedSteps w g) descs
    (fun d hd => by
      obtain ⟨id, state, rfl, hip⟩ := hdescs d hd
      exact handlerTarget_steps w g id state hkey hdial hsession hip)
  rcases hr : w.DescribeTargetHealth g.defaultRegion
      ("arn:aws:elasticloadbalancing:" ++ g.defaultRegion ++ ":197542431507:" ++
        resource.Value) with ⟨resp, err⟩
  rw [hr] at hresp
  simp only at hresp
  subst hresp
  have herr := shellSteps_logHealthError err
  unfold shellSteps at herr ⊢
  unfold handlerTargetGroup
  simp only [Exec.bind_eq, Exec.pure_eq, hr, Exec.deref, Exec.guarded_forEach]
  rw [Exec.andThen_of_returned _ _ () rfl,
    Exec.andThen_of_returned _ _ () (logHealthError_returned err)]
  simp [Exec.emit, hloop.1, hloop.2, herr, shellStep, List.filterMap_append]

/-- The body of the dimension loop for a target group when nothing faults. -/
theorem handlerDimension_steps (w : World) (g : Globals) (resource : Dimension)
    (descs : List (Option TargetHealthDescription))
    (hname : resource.Name = "TargetGroup")
    (hresp : (w.DescribeTargetHealth g.defaultRegion
      ("arn:aws:elasticloadbalancing:" ++ g.defaultRegion ++ ":197542431507:" ++
        resource.Value)).1 = some ⟨descs⟩)
    (hkey : (w.ParsePrivateKey g.pem).2 = none)
    (hdial : ∀ addr config, ∃ conn, (w.Dial "tcp" addr config).1 = some conn)
    (hsession : ∀ conn, ∃ session, (w.NewSession conn).1 = some session)
    (hdescs : ∀ d ∈ descs, ∃ id state, d = mkTarget id state ∧
      (state = "unhealthy" →
        ∃ ip, (getInstanceIpByInstanceId w g id).outcome = .returned ip)) :
    (handlerDimension w g resource).outcome = .returned ()
    ∧ shellSteps (handlerDimension w g resource).trace =
        descs.flatMap (expectedSteps w g) := by
  obtain ⟨hout, hsteps⟩ :=
    handlerTargetGroup_steps w g resource descs hresp hkey hdial hsession hdescs
  unfold shellSteps at hsteps ⊢
  unfold handlerDimension
  simp only [if_pos hname, Exec.bind_eq]
  rw [Exec.andThen_of_returned _ _ () hout]
  simp [Exec.emit, hsteps, shellStep, List.filterMap_append]

/-- C1: for every list of records returned by the health query of a target
group, when the key parses, the remote-shell connections open and the address
of each unhealthy record resolves, the handler processes the dimension to its
end and the remote command runner is used exactly so: for each record whose
state is `unhealthy`, in list order, one connection to the resolved address
running the stop command, then one connection to the same address running the
start command; a record in any other state adds nothing. -/
theorem handler_remediation_steps (w : World) (g : Globals) (resource : Dimension)
    (descs : List (Option TargetHealthDescription))
    (hname : resource.Name = "TargetGroup")
    (hresp : (w.DescribeTargetHealth g.defaultRegion
      ("arn:aws:elasticloadbalancing:" ++ g.defaultRegion ++ ":197542431507:" ++
        resource.Value)).1 = some ⟨descs⟩)
    (hkey : (w.ParsePrivateKey g.pem).2 = none)
    (hdial : ∀ addr config, ∃ conn, (w.Dial "tcp" addr config).1 = some conn)
    (hsession : ∀ conn, ∃ session, (w.NewSession conn).1 = some session)
    (hdescs : ∀ d ∈ descs, ∃ id state, d = mkTarget id state ∧
      (state = "unhealthy" →
        ∃ ip, (getInstanceIpByInstanceId w g id).outcome = .returned ip)) :
    (handlerDimension w g resource).outcome = .returned ()
    ∧ shellSteps (handlerDimension w g resource).trace =
        descs.flatMap (expectedSteps w g)
    ∧ (∀ id state, state ≠ "unhealthy" → expectedSteps w g (mkTarget id state) = [])
    ∧ (∀ id ip, (getInstanceIpByInstanceId w g id).outcome = .returned ip →
        expectedSteps w g (mkTarget id "unhealthy") =
          [.connect (ip ++ ":22"), .command g.applicationStopCommand,
           .connect (ip ++ ":22"), .command g.applicationStartCommand]) := by
  obtain ⟨hout, hsteps⟩ :=
    handlerDimension_steps w g resource descs hname hresp hkey hdial hsession hdescs
  refine ⟨hout, hsteps, fun id state hs => ?_, fun id ip hip => ?_⟩
  · simp [expectedSteps, mkTarget, hs]
  · simp [expectedSteps, mkTarget, hip]

/-- Witness for C1: the sample target group, whose records are in the states
healthy, unhealthy, unhealthy: two stop/start pairs, four runner calls. -/
theorem handler_remediation_steps_witness :
    ((handlerDimension sampleWorld sampleGlobals
        ⟨"targetgroup/app/abc123", "TargetGroup"⟩).outcome = .returned ()
      ∧ shellSteps (handlerDimension sampleWorld sampleGlobals
          ⟨"targetgroup/app/abc123", "TargetGroup"⟩).trace =
        [mkTarget "i-0000" "healthy", mkTarget "i-0001" "unhealthy",
          mkTarget "i-0002" "unhealthy"].flatMap (expectedSteps sampleWorld sampleGlobals)
      ∧ (∀ id state, state ≠ "unhealthy" →
          expectedSteps sampleWorld sampleGlobals (mkTarget id state) = [])
      ∧ (∀ id ip, (getInstanceIpByInstanceId sampleWorld sampleGlobals id).outcome
            = .returned ip →
          expectedSteps sampleWorld sampleGlobals (mkTarget id "unhealthy") =
            [.connect (ip ++ ":22"), .command sampleGlobals.applicationStopCommand,
             .connect (ip ++ ":22"), .command sampleGlobals.applicationStartCommand]))
    ∧ [mkTarget "i-0000" "healthy", mkTarget "i-0001" "unhealthy",
          mkTarget "i-0002" "unhealthy"].flatMap (expectedSteps sampleWorld sampleGlobals) =
        [.connect "10.0.0.5:22", .command "systemctl stop app",
         .connect "10.0.0.5:22", .command "systemctl start app",
         .connect "10.0.0.6:22", .command "systemctl stop app",
         .connect "10.0.0.6:22", .command "systemctl start app"] :=
  ⟨handler_remediation_steps sampleWorld sampleGlobals ⟨"targetgroup/app/abc123", "TargetGroup"⟩
      [mkTarget "i-0000" "healthy", mkTarget "i-0001" "unhealthy", mkTarget "i-0002" "unhealthy"]
      rfl (by decide) rfl (fun _ _ => ⟨⟨1⟩, rfl⟩) (fun conn => ⟨⟨conn.handle⟩, rfl⟩)
      (by
        intro d hd
        simp only [List.mem_cons, List.mem_singleton, List.not_mem_nil, or_false] at hd
        rcases hd with rfl | rfl | rfl
        · exact ⟨"i-0000", "healthy", rfl, fun h => absurd h (by decide)⟩
        · exact ⟨"i-0001", "unhealthy", rfl, fun _ => ⟨"10.0.0.5", by decide⟩⟩
        · exact ⟨"i-0002", "unhealthy", rfl, fun _ => ⟨"10.0.0.6", by decide⟩⟩),
    by decide⟩

/-- Witness for C8: a directory that fails with a plain error, one that fails
with a provider error, and one that knows the instance. -/
theorem getInstanceIpByInstanceId_result_witness :
    getInstanceIpByInstanceId directoryErrorWorld sampleGlobals "i-0001" =
        ⟨[.describeInstances sampleGlobals.defaultRegion "i-0001",
          .fmtPrintln (SdkError.plain "RequestError: send request failed").Error], .returned ""⟩
    ∧ getInstanceIpByInstanceId sampleWorld sampleGlobals "i-9999" =
        ⟨[.describeInstances sampleGlobals.defaultRegion "i-9999",
          .fmtPrintln (SdkError.aws "InvalidInstanceID.NotFound"
            "InvalidInstanceID.NotFound: no such instance").Error], .returned ""⟩
    ∧ getInstanceIpByInstanceId sampleWorld sampleGlobals "i-0001" =
        ⟨[.describeInstances sampleGlobals.defaultRegion "i-0001"], .returned "10.0.0.5"⟩ :=
  ⟨(getInstanceIpByInstanceId_result directoryErrorWorld sampleGlobals "i-0001").1
      none (.plain "RequestError: send request failed") rfl,
    (getInstanceIpByInstanceId_result sampleWorld sampleGlobals "i-9999").1
      (some ⟨[]⟩) (.aws "InvalidInstanceID.NotFound"
        "InvalidInstanceID.NotFound: no such instance") (by decide),
    (getInstanceIpByInstanceId_result sampleWorld sampleGlobals "i-0001").2
      "10.0.0.5" (by decide)⟩

/-! ## The whole event when nothing faults -/

theorem handler_eq (w : World) (g : Globals) (event : SNSEvent) :
    handler w g event =
      Exec.andThen (Exec.forEachWith event.Records SNSMessage.zero (handlerRecord w g))
        (fun _ => Exec.ret ()) := by
  unfold handler
  cases h : event.Records with
  | nil => simp [Exec.forEachWith]
  | cons r rest => simp

theorem handlerDimension_returns (w : World) (g : Globals) (resource : Dimension)
    (hkey : (w.ParsePrivateKey g.pem).2 = none)
    (hdial : ∀ addr config, ∃ conn, (w.Dial "tcp" addr config).1 = some conn)
    (hsession : ∀ conn, ∃ session, (w.NewSession conn).1 = some session)
    (hhealth : ∀ arn, ∃ descs, (w.DescribeTargetHealth g.defaultRegion arn).1 = some ⟨descs⟩ ∧
      ∀ d ∈ descs, ∃ id state, d = mkTarget id state ∧
        (state = "unhealthy" →
          ∃ ip, (getInstanceIpByInstanceId w g id).outcome = .returned ip)) :
    (handlerDimension w g resource).outcome = .returned () := by
  by_cases hname : resource.Name = "TargetGroup"
  · obtain ⟨descs, hresp, hdescs⟩ := hhealth
      ("arn:aws:elasticloadbalancing:" ++ g.defaultRegion ++ ":197542431507:" ++ resource.Value)
    exact (handlerDimension_steps w g resource descs hname hresp hkey hdial hsession hdescs).1
  · rw [handlerDimension_other w g resource hname]

theorem handlerRecord_returns (w : World) (g : Globals) (m : SNSMessage)
    (record : SNSEventRecord)
    (hdims : ∀ d, (handlerDimension w g d).outcome = .returned ()) :
    (handlerRecord w g m record).outcome = .returned (w.Unmarshal record.SNS.Message m).2
    ∧ resourceLogs (handlerRecord w g m record).trace =
        (w.Unmarshal record.SNS.Message m).2.Trigger.Dimensions.map
          (fun d => (d.Name, d.Value)) := by
  have hscan := Exec.forEach_of_returned resourceLog (handlerDimension w g)
    (fun d => [(d.Name, d.Value)]) (w.Unmarshal record.SNS.Message m).2.Trigger.Dimensions
    (fun d _ => ⟨hdims d, (resourceLogs_handlerDimension w g d).2 (hdims d)⟩)
  rw [flatMap_singleton_eq_map] at hscan
  obtain ⟨_, _, _, _, _, hout⟩ := handlerRecord_trace w g m record
  rw [resourceLogs_handlerRecord]
  refine ⟨?_, hscan.2⟩
  rcases hout with ⟨h, _⟩ | ⟨f, _, hf⟩
  · exact h
  · rw [hscan.1] at hf
    cases hf

theorem forEachWith_handlerRecord (w : World) (g : Globals)
    (hdims : ∀ d, (handlerDimension w g d).outcome = .returned ())
    (records : List SNSEventRecord) (m : SNSMessage) :
    (∃ m1, (Exec.forEachWith records m (handlerRecord w g)).outcome = .returned m1)
    ∧ resourceLogs (Exec.forEachWith records m (handlerRecord w g)).trace =
        (decodedStates w m records).flatMap fun s =>
          s.Trigger.Dimensions.map fun d => (d.Name, d.Value) := by
  induction records generalizing m with
  | nil => exact ⟨⟨m, rfl⟩, rfl⟩
  | cons r rest ih =>
    obtain ⟨hout, hlogs⟩ := handlerRecord_returns w g m r hdims
    obtain ⟨⟨m1, hm1⟩, hrest⟩ := ih (w.Unmarshal r.SNS.Message m).2
    unfold Exec.forEachWith
    rw [Exec.andThen_of_returned _ _ _ hout]
    refine ⟨⟨m1, hm1⟩, ?_⟩
    unfold resourceLogs at hlogs hrest ⊢
    simp [decodedStates, List.filterMap_append, hlogs, hrest]

/-- C10, amended: whatever errors the health query, the address resolution and
the commands return, when the key parses, every health query yields a response
whose records have their pointers set, the address of every unhealthy record
resolves, and every connection and session opens, the handler runs to its end
and emits the name/value log line of every dimension held in `snsMessage` after
the decode of each record, in order, whether or not the dimension is named
`TargetGroup`. -/
theorem handler_logs_every_dimension (w : World) (g : Globals) (event : SNSEvent)
    (hkey : (w.ParsePrivateKey g.pem).2 = none)
    (hdial : ∀ addr config, ∃ conn, (w.Dial "tcp" addr config).1 = some conn)
    (hsession : ∀ conn, ∃ session, (w.NewSession conn).1 = some session)
    (hhealth : ∀ arn, ∃ descs, (w.DescribeTargetHealth g.defaultRegion arn).1 = some ⟨descs⟩ ∧
      ∀ d ∈ descs, ∃ id state, d = mkTarget id state ∧
        (state = "unhealthy" →
          ∃ ip, (getInstanceIpByInstanceId w g id).outcome = .returned ip)) :
    (handler w g event).outcome = .returned ()
    ∧ resourceLogs (handler w g event).trace = expectedResourceLogs w event.Records := by
  obtain ⟨⟨m1, hm1⟩, hlogs⟩ := forEachWith_handlerRecord w g
    (fun d => handlerDimension_returns w g d hkey hdial hsession hhealth)
    event.Records SNSMessage.zero
  rw [handler_eq, Exec.andThen_of_returned _ _ m1 hm1]
  simp [Exec.ret, hlogs, expectedResourceLogs]

/-- Counterexample to C10 as stated: with key material that does not parse,
the handler stops at `log.Fatalf` inside the first dimension and logs none of
the two dimensions of the record. -/
theorem handler_logs_every_dimension_counterexample :
    (handler badKeyWorld sampleGlobals alarmEvent).outcome = .stopped (.exit 1)
    ∧ resourceLogs (handler badKeyWorld sampleGlobals alarmEvent).trace = []
    ∧ expectedResourceLogs badKeyWorld alarmEvent.Records =
        [("TargetGroup", "targetgroup/app/abc123"), ("LoadBalancer", "app/lb/def456")] := by
  decide

/-- Witness for C10, amended: the sample alarm followed by a record that is
not JSON, in the sample world. -/
theorem handler_logs_every_dimension_witness :
    ((handler sampleWorld sampleGlobals malformedSecondEvent).outcome = .returned ()
      ∧ resourceLogs (handler sampleWorld sampleGlobals malformedSecondEvent).trace =
          expectedResourceLogs sampleWorld malformedSecondEvent.Records)
    ∧ expectedResourceLogs sampleWorld malformedSecondEvent.Records =
        [("TargetGroup", "targetgroup/app/abc123"), ("LoadBalancer", "app/lb/def456"),
         ("TargetGroup", "targetgroup/app/abc123"), ("LoadBalancer", "app/lb/def456")] :=
  ⟨handler_logs_every_dimension sampleWorld sampleGlobals malformedSecondEvent rfl
      (fun _ _ => ⟨⟨1⟩, rfl⟩) (fun conn => ⟨⟨conn.handle⟩, rfl⟩)
      (by
        intro arn
        by_cases h : arn =
            "arn:aws:elasticloadbalancing:us-east-1:197542431507:targetgroup/app/abc123"
        · refine ⟨[mkTarget "i-0000" "healthy", mkTarget "i-0001" "unhealthy",
            mkTarget "i-0002" "unhealthy"], by simp [sampleWorld, h], ?_⟩
          intro d hd
          simp only [List.mem_cons, List.mem_singleton, List.not_mem_nil, or_false] at hd
          rcases hd with rfl | rfl | rfl
          · exact ⟨"i-0000", "healthy", rfl, fun h => absurd h (by decide)⟩
          · exact ⟨"i-0001", "unhealthy", rfl, fun _ => ⟨"10.0.0.5", by decide⟩⟩
          · exact ⟨"i-0002", "unhealthy", rfl, fun _ => ⟨"10.0.0.6", by decide⟩⟩
        · exact ⟨[], by simp [sampleWorld, h], by simp⟩),
    by decide⟩

/-! ## Where the code departs from the specification -/

/-- C2, evaluated at a failing input: the second record of the event is not
JSON.  The decode failure is logged, and then the dimensions left in
`snsMessage` by the first record are scanned again: the health query is sent a
second time and both unhealthy targets are stopped and started again. -/
theorem handler_malformed_record_reprocessed :
    (sampleWorld.Unmarshal malformedMessage
        (sampleWorld.Unmarshal alarmMessage SNSMessage.zero).2).1 =
      some "invalid character 'o' in literal null (expecting 'u')"
    ∧ (handlerRecord sampleWorld sampleGlobals
        (sampleWorld.Unmarshal alarmMessage SNSMessage.zero).2 ⟨⟨malformedMessage⟩⟩).trace.head? =
      some (.logDecodeError "invalid character 'o' in literal null (expecting 'u')")
    ∧ healthQueries (handlerRecord sampleWorld sampleGlobals
        (sampleWorld.Unmarshal alarmMessage SNSMessage.zero).2 ⟨⟨malformedMessage⟩⟩).trace =
      ["arn:aws:elasticloadbalancing:us-east-1:197542431507:targetgroup/app/abc123"]
    ∧ shellSteps (handlerRecord sampleWorld sampleGlobals
        (sampleWorld.Unmarshal alarmMessage SNSMessage.zero).2 ⟨⟨malformedMessage⟩⟩).trace =
      [.connect "10.0.0.5:22", .command "systemctl stop app",
       .connect "10.0.0.5:22", .command "systemctl start app",
       .connect "10.0.0.6:22", .command "systemctl stop app",
       .connect "10.0.0.6:22", .command "systemctl start app"]
    ∧ healthQueries (handler sampleWorld sampleGlobals alarmEvent).trace =
      ["arn:aws:elasticloadbalancing:us-east-1:197542431507:targetgroup/app/abc123"]
    ∧ healthQueries (handler sampleWorld sampleGlobals malformedSecondEvent).trace =
      ["arn:aws:elasticloadbalancing:us-east-1:197542431507:targetgroup/app/abc123",
       "arn:aws:elasticloadbalancing:us-east-1:197542431507:targetgroup/app/abc123"] := by
  decide

/-- C3, evaluated at a failing input: the second record of the event is an
alarm whose trigger has no `Dimensions` key.  It decodes without error and
leaves the dimensions of the first record in `snsMessage`; they are scanned
again, with a second health query and a second round of stop and start. -/
theorem handler_no_dimensions_record_reprocessed :
    (sampleWorld.Unmarshal noDimensionsMessage
        (sampleWorld.Unmarshal alarmMessage SNSMessage.zero).2).1 = none
    ∧ healthQueries (handlerRecord sampleWorld sampleGlobals
        (sampleWorld.Unmarshal alarmMessage SNSMessage.zero).2 ⟨⟨noDimensionsMessage⟩⟩).trace =
      ["arn:aws:elasticloadbalancing:us-east-1:197542431507:targetgroup/app/abc123"]
    ∧ shellSteps (handlerRecord sampleWorld sampleGlobals
        (sampleWorld.Unmarshal alarmMessage SNSMessage.zero).2 ⟨⟨noDimensionsMessage⟩⟩).trace =
      [.connect "10.0.0.5:22", .command "systemctl stop app",
       .connect "10.0.0.5:22", .command "systemctl start app",
       .connect "10.0.0.6:22", .command "systemctl stop app",
       .connect "10.0.0.6:22", .command "systemctl start app"]
    ∧ healthQueries (handler sampleWorld sampleGlobals noDimensionsSecondEvent).trace =
      ["arn:aws:elasticloadbalancing:us-east-1:197542431507:targetgroup/app/abc123",
       "arn:aws:elasticloadbalancing:us-east-1:197542431507:targetgroup/app/abc123"]
    ∧ (handler sampleWorld sampleGlobals ⟨[⟨⟨noDimensionsMessage⟩⟩]⟩).trace =
      [.logRegion "EU (Ireland)"] := by
  decide

/-- C6, evaluated at failing inputs: the directory answers without error and
with no reservation, or with a reservation holding no instance.  Indexing the
empty list panics in `getInstanceIpByInstanceId`, and the handler stops at the
first unhealthy target without logging anything about it. -/
theorem getInstanceIpByInstanceId_empty_panics :
    getInstanceIpByInstanceId emptyDirectoryWorld sampleGlobals "i-0001" =
      ⟨[.describeInstances "us-east-1" "i-0001"], .stopped .indexOutOfRange⟩
    ∧ getInstanceIpByInstanceId emptyReservationWorld sampleGlobals "i-0001" =
      ⟨[.describeInstances "us-east-1" "i-0001"], .stopped .indexOutOfRange⟩
    ∧ handler emptyDirectoryWorld sampleGlobals alarmEvent =
      ⟨[.describeTargetHealth "us-east-1"
          "arn:aws:elasticloadbalancing:us-east-1:197542431507:targetgroup/app/abc123",
        .describeInstances "us-east-1" "i-0001"], .stopped .indexOutOfRange⟩ := by
  decide

/-! ## Queries and log lines over a whole event -/

theorem Exec.forEach_cons {α : Type} (x : α) (rest : List α) (body : α → Exec Unit) :
    Exec.forEach (x :: rest) body =
      Exec.andThen (body x) (fun _ => Exec.forEach rest body) := rfl

theorem Exec.forEach_append {α : Type} (xs ys : List α) (body : α → Exec Unit)
    (h : (Exec.forEach xs body).outcome = .returned ()) :
    Exec.forEach (xs ++ ys) body =
      ⟨(Exec.forEach xs body).trace ++ (Exec.forEach ys body).trace,
        (Exec.forEach ys body).outcome⟩ := by
  induction xs with
  | nil => simp [Exec.forEach, Exec.ret]
  | cons x rest ih =>
    rw [Exec.forEach_cons] at h
    obtain ⟨u, hx, hrest⟩ := Exec.returned_of_andThen _ _ _ h
    rw [List.cons_append, Exec.forEach_cons, Exec.forEach_cons,
      Exec.andThen_of_returned _ _ u hx, Exec.andThen_of_returned _ _ u hx, ih hrest]
    simp

/-- A projection of the trace of the record loop is the concatenation of the
projections expected for the content of `snsMessage` after each decode, cut
short when a record stops. -/
theorem records_filterMap {β : Type} (p : Event → Option β) (F : SNSMessage → List β)
    (w : World) (g : Globals)
    (h1 : ∀ m r, (handlerRecord w g m r).trace.filterMap p <+:
      F (w.Unmarshal r.SNS.Message m).2)
    (h2 : ∀ m r m1, (handlerRecord w g m r).outcome = .returned m1 →
      (handlerRecord w g m r).trace.filterMap p = F (w.Unmarshal r.SNS.Message m).2)
    (records : List SNSEventRecord) (m : SNSMessage) :
    (Exec.forEachWith records m (handlerRecord w g)).trace.filterMap p <+:
        (decodedStates w m records).flatMap F
    ∧ (∀ m1, (Exec.forEachWith records m (handlerRecord w g)).outcome = .returned m1 →
      (Exec.forEachWith records m (handlerRecord w g)).trace.filterMap p =
        (decodedStates w m records).flatMap F) := by
  induction records generalizing m with
  | nil => simp [Exec.forEachWith, Exec.ret, decodedStates]
  | cons r rest ih =>
    unfold Exec.forEachWith
    simp only [decodedStates, List.flatMap_cons]
    obtain ⟨_, _, _, _, _, hout⟩ := handlerRecord_trace w g m r
    rcases hout with ⟨hret, _⟩ | ⟨f, hf, _⟩
    · rw [Exec.andThen_of_returned _ _ _ hret]
      simp only [List.filterMap_append, h2 m r _ hret]
      exact ⟨(List.prefix_append_right_inj _).2 (ih _).1, fun m1 hm1 => by rw [(ih _).2 m1 hm1]⟩
    · rw [Exec.andThen_of_stopped _ _ f hf]
      exact ⟨(h1 m r).trans (List.prefix_append _ _), fun m1 hm1 => by cases hm1⟩

theorem handler_filterMap {β : Type} (p : Event → Option β) (F : SNSMessage → List β)
    (w : World) (g : Globals)
    (h1 : ∀ m r, (handlerRecord w g m r).trace.filterMap p <+:
      F (w.Unmarshal r.SNS.Message m).2)
    (h2 : ∀ m r m1, (handlerRecord w g m r).outcome = .returned m1 →
      (handlerRecord w g m r).trace.filterMap p = F (w.Unmarshal r.SNS.Message m).2)
    (event : SNSEvent) :
    (handler w g event).trace.filterMap p <+:
        (decodedStates w SNSMessage.zero event.Records).flatMap F
    ∧ ((handler w g event).outcome = .returned () →
      (handler w g event).trace.filterMap p =
        (decodedStates w SNSMessage.zero event.Records).flatMap F) := by
  obtain ⟨hpre, heq⟩ := records_filterMap p F w g h1 h2 event.Records SNSMessage.zero
  rw [handler_eq]
  cases hx : (Exec.forEachWith event.Records SNSMessage.zero (handlerRecord w g)).outcome with
  | returned m1 =>
    rw [Exec.andThen_of_returned _ _ m1 hx]
    simp only [Exec.ret, List.append_nil]
    exact ⟨hpre, fun _ => heq m1 hx⟩
  | stopped f =>
    rw [Exec.andThen_of_stopped _ _ f hx]
    exact ⟨hpre, fun h => by cases h⟩

theorem scan_returned_of_record (w : World) (g : Globals) (m m1 : SNSMessage)
    (record : SNSEventRecord) (h : (handlerRecord w g m record).outcome = .returned m1) :
    (Exec.forEach (w.Unmarshal record.SNS.Message m).2.Trigger.Dimensions
      (handlerDimension w g)).outcome = .returned () := by
  obtain ⟨_, _, _, _, _, hout⟩ := handlerRecord_trace w g m record
  rcases hout with ⟨_, hs⟩ | ⟨f, hf, _⟩
  · exact hs
  · rw [hf] at h
    cases h

theorem healthQueries_handler (w : World) (g : Globals) (event : SNSEvent) :
    healthQueries (handler w g event).trace <+:
        (decodedStates w SNSMessage.zero event.Records).flatMap
          (fun m => targetGroupArns g.defaultRegion m.Trigger.Dimensions)
    ∧ ((handler w g event).outcome = .returned () →
      healthQueries (handler w g event).trace =
        (decodedStates w SNSMessage.zero event.Records).flatMap
          (fun m => targetGroupArns g.defaultRegion m.Trigger.Dimensions)) :=
  handler_filterMap healthQueryArn
    (fun m => targetGroupArns g.defaultRegion m.Trigger.Dimensions) w g
    (fun m r => by
      have h := healthQueries_handlerRecord w g m r
      unfold healthQueries at h
      rw [h]
      exact (healthQueries_scan w g _).1)
    (fun m r m1 hm1 => by
      have h := healthQueries_handlerRecord w g m r
      unfold healthQueries at h
      rw [h]
      exact (healthQueries_scan w g _).2 (scan_returned_of_record w g m m1 r hm1))
    event

theorem decodedStates_of_decodesOwn (w : World) (records : List SNSEventRecord)
    (m : SNSMessage) (h : decodesOwn w m records) :
    (decodedStates w m records).map (fun s => s.Trigger.Dimensions) =
      records.map (ownDimensions w) := by
  induction records generalizing m with
  | nil => rfl
  | cons r rest ih =>
    obtain ⟨h1, h2⟩ := h
    simp only [decodedStates, List.map_cons, h1, ih _ h2]

theorem flatMap_decodedStates {β : Type} (w : World) (records : List SNSEventRecord)
    (m : SNSMessage) (h : decodesOwn w m records) (F : List Dimension → List β) :
    (decodedStates w m records).flatMap (fun s => F s.Trigger.Dimensions) =
      records.flatMap (fun r => F (ownDimensions w r)) := by
  have := congrArg (fun l => List.flatMap l F) (decodedStates_of_decodesOwn w records m h)
  simpa [List.flatMap_def, List.map_map, Function.comp_def] using this

theorem handlerRecord_other (w : World) (g : Globals) (m : SNSMessage)
    (record : SNSEventRecord)
    (hd : ∀ d ∈ (w.Unmarshal record.SNS.Message m).2.Trigger.Dimensions,
      d.Name ≠ "TargetGroup") :
    (handlerRecord w g m record).outcome = .returned (w.Unmarshal record.SNS.Message m).2
    ∧ ∀ e ∈ (handlerRecord w g m record).trace, isDownstreamCall e = false := by
  obtain ⟨front, back, hfront, hback, htrace, hout⟩ := handlerRecord_trace w g m record
  rw [forEach_other_dimensions w g _ hd] at htrace hout
  constructor
  · rcases hout with ⟨h, _⟩ | ⟨f, _, hf⟩
    · exact h
    · cases hf
  · intro e he
    rw [htrace] at he
    simp only [List.mem_append, List.mem_map] at he
    rcases he with (he | ⟨d, _, rfl⟩) | he
    · obtain ⟨text, rfl⟩ := hfront e he
      rfl
    · rfl
    · obtain ⟨region, rfl⟩ := hback e he
      rfl

theorem records_other (w : World) (g : Globals) (records : List SNSEventRecord)
    (m : SNSMessage)
    (hd : ∀ s ∈ decodedStates w m records, ∀ d ∈ s.Trigger.Dimensions,
      d.Name ≠ "TargetGroup") :
    (∃ m1, (Exec.forEachWith records m (handlerRecord w g)).outcome = .returned m1)
    ∧ ∀ e ∈ (Exec.forEachWith records m (handlerRecord w g)).trace,
        isDownstreamCall e = false := by
  induction records generalizing m with
  | nil => exact ⟨⟨m, rfl⟩, by simp [Exec.forEachWith, Exec.ret]⟩
  | cons r rest ih =>
    obtain ⟨hout, hcalls⟩ := handlerRecord_other w g m r
      (hd _ (by simp [decodedStates]))
    obtain ⟨hret, hrest⟩ := ih (w.Unmarshal r.SNS.Message m).2
      (fun s hs => hd s (by simp [decodedStates, hs]))
    unfold Exec.forEachWith
    rw [Exec.andThen_of_returned _ _ _ hout]
    refine ⟨hret, fun e he => ?_⟩
    simp only [List.mem_append] at he
    rcases he with he | he
    · exact hcalls e he
    · exact hrest e he

theorem resourceLogs_handler (w : World) (g : Globals) (event : SNSEvent) :
    resourceLogs (handler w g event).trace <+:
        (decodedStates w SNSMessage.zero event.Records).flatMap
          (fun m => m.Trigger.Dimensions.map (fun d => (d.Name, d.Value)))
    ∧ ((handler w g event).outcome = .returned () →
      resourceLogs (handler w g event).trace =
        (decodedStates w SNSMessage.zero event.Records).flatMap
          (fun m => m.Trigger.Dimensions.map (fun d => (d.Name, d.Value)))) := by
  unfold resourceLogs
  exact handler_filterMap resourceLog
    (fun m : SNSMessage => m.Trigger.Dimensions.map (fun d : Dimension => (d.Name, d.Value))) w g
    (fun m r => by
      have h := resourceLogs_handlerRecord w g m r
      unfold resourceLogs at h
      rw [h]
      exact (resourceLogs_scan w g _).1)
    (fun m r m1 hm1 => by
      have h := resourceLogs_handlerRecord w g m r
      unfold resourceLogs at h
      rw [h]
      exact (resourceLogs_scan w g _).2 (scan_returned_of_record w g m m1 r hm1))
    event

theorem logHealthError_some (err : SdkError) :
    ∃ args, err.Error ∈ args ∧
      logHealthError (some err) = ⟨[.logPrintln args], .returned ()⟩ := by
  cases err with
  | plain text => exact ⟨[text], by simp [SdkError.Error], rfl⟩
  | aws code text =>
    unfold logHealthError
    dsimp only
    by_cases h1 : code = ErrCodeInvalidTargetException
    · refine ⟨[ErrCodeInvalidTargetException, text], by simp [SdkError.Error], ?_⟩
      rw [if_pos h1]
      rfl
    · by_cases h2 : code = ErrCodeTargetGroupNotFoundException
      · refine ⟨[ErrCodeTargetGroupNotFoundException, text], by simp [SdkError.Error], ?_⟩
        rw [if_neg h1, if_pos h2]
        rfl
      · by_cases h3 : code = ErrCodeHealthUnavailableException
        · refine ⟨[ErrCodeHealthUnavailableException, text], by simp [SdkError.Error], ?_⟩
          rw [if_neg h1, if_neg h2, if_pos h3]
          rfl
        · refine ⟨[text], by simp [SdkError.Error], ?_⟩
          rw [if_neg h1, if_neg h2, if_neg h3]
          rfl

/-- C4, amended: the processing of a dimension whose name is not `TargetGroup`
is its name/value log line and nothing else, and it returns: once the scan of
a record reaches such a dimension, the line is emitted between what came
before and what follows, with no health query, no address resolution and no
remote-shell call.  For a record whose decode leaves its own dimensions in
`snsMessage`, the health queries made for it are never more than its
dimensions named `TargetGroup`, and exactly as many when the record is
processed to its end.  Over an event of such records the identifiers queried
are, in order, those of the records' target-group dimensions, all of them when
the handler runs to its end; and when no dimension is named `TargetGroup` the
handler runs to its end, logs every dimension and calls no outside service. -/
theorem handler_other_dimension (w : World) (g : Globals) :
    (∀ resource : Dimension, resource.Name ≠ "TargetGroup" →
      handlerDimension w g resource =
        ⟨[.logResource resource.Name resource.Value], .returned ()⟩)
    ∧ (∀ (before after : List Dimension) (d : Dimension), d.Name ≠ "TargetGroup" →
      (Exec.forEach before (handlerDimension w g)).outcome = .returned () →
      Exec.forEach (before ++ d :: after) (handlerDimension w g) =
        ⟨(Exec.forEach before (handlerDimension w g)).trace ++
            .logResource d.Name d.Value :: (Exec.forEach after (handlerDimension w g)).trace,
          (Exec.forEach after (handlerDimension w g)).outcome⟩)
    ∧ (∀ m record,
      (w.Unmarshal record.SNS.Message m).2.Trigger.Dimensions = ownDimensions w record →
      (healthQueries (handlerRecord w g m record).trace).length ≤
          ((ownDimensions w record).filter isTargetGroup).length
      ∧ (∀ m1, (handlerRecord w g m record).outcome = .returned m1 →
        (healthQueries (handlerRecord w g m record).trace).length =
          ((ownDimensions w record).filter isTargetGroup).length))
    ∧ (∀ event : SNSEvent, decodesOwn w SNSMessage.zero event.Records →
      healthQueries (handler w g event).trace <+:
          event.Records.flatMap (fun r => targetGroupArns g.defaultRegion (ownDimensions w r))
      ∧ ((handler w g event).outcome = .returned () →
        healthQueries (handler w g event).trace =
          event.Records.flatMap
            (fun r => targetGroupArns g.defaultRegion (ownDimensions w r))))
    ∧ (∀ event : SNSEvent, decodesOwn w SNSMessage.zero event.Records →
      (∀ r ∈ event.Records, ∀ d ∈ ownDimensions w r, d.Name ≠ "TargetGroup") →
      (handler w g event).outcome = .returned ()
      ∧ (∀ e ∈ (handler w g event).trace, isDownstreamCall e = false)
      ∧ resourceLogs (handler w g event).trace =
          event.Records.flatMap
            (fun r => (ownDimensions w r).map (fun d => (d.Name, d.Value)))) := by
  refine ⟨handlerDimension_other w g, fun before after d hd hbefore => ?_,
    fun m record hown => ?_, fun event hown => ?_, fun event hown hd => ?_⟩
  · rw [Exec.forEach_append _ _ _ hbefore, Exec.forEach_cons, handlerDimension_other w g d hd,
      Exec.andThen_of_returned _ _ () rfl]
    simp
  · rw [healthQueries_handlerRecord, hown]
    refine ⟨?_, fun m1 hm1 => ?_⟩
    · have := (healthQueries_scan w g (ownDimensions w record)).1.length_le
      simpa [targetGroupArns] using this
    · have hs := scan_returned_of_record w g m m1 record hm1
      rw [hown] at hs
      rw [(healthQueries_scan w g _).2 hs]
      simp [targetGroupArns]
  · have h := healthQueries_handler w g event
    rw [flatMap_decodedStates w event.Records SNSMessage.zero hown
      (fun dims => targetGroupArns g.defaultRegion dims)] at h
    exact h
  · have hstates : ∀ s ∈ decodedStates w SNSMessage.zero event.Records,
        ∀ d ∈ s.Trigger.Dimensions, d.Name ≠ "TargetGroup" := by
      intro s hs d hdm
      have hmem : s.Trigger.Dimensions ∈
          (decodedStates w SNSMessage.zero event.Records).map (fun s => s.Trigger.Dimensions) :=
        List.mem_map.2 ⟨s, hs, rfl⟩
      rw [decodedStates_of_decodesOwn w event.Records SNSMessage.zero hown] at hmem
      obtain ⟨r, hr, hrd⟩ := List.mem_map.1 hmem
      exact hd r hr d (by rw [hrd]; exact hdm)
    obtain ⟨⟨m1, hm1⟩, hcalls⟩ := records_other w g event.Records SNSMessage.zero hstates
    have hout : (handler w g event).outcome = .returned () := by
      rw [handler_eq, Exec.andThen_of_returned _ _ m1 hm1]
      rfl
    refine ⟨hout, fun e he => ?_, ?_⟩
    · rw [handler_eq, Exec.andThen_of_returned _ _ m1 hm1] at he
      simp only [Exec.ret, List.append_nil] at he
      exact hcalls e he
    · rw [(resourceLogs_handler w g event).2 hout]
      exact flatMap_decodedStates w event.Records SNSMessage.zero hown
        (fun dims => dims.map (fun d => (d.Name, d.Value)))

/-- Counterexample to C4 as stated, with key material that does not parse: the
handler exits at `log.Fatalf` while remediating the first target group.  A
record with two dimensions named `TargetGroup` gets one health query; and the
`LoadBalancer` dimension of the sample alarm, whose name is not `TargetGroup`,
never gets its log line. -/
theorem handler_other_dimension_counterexample :
    healthQueries (handler badKeyWorld sampleGlobals ⟨[⟨⟨twoGroupsMessage⟩⟩]⟩).trace =
      ["arn:aws:elasticloadbalancing:us-east-1:197542431507:targetgroup/app/abc123"]
    ∧ ((ownDimensions badKeyWorld ⟨⟨twoGroupsMessage⟩⟩).filter isTargetGroup).length = 2
    ∧ (⟨"app/lb/def456", "LoadBalancer"⟩ : Dimension) ∈
        ownDimensions badKeyWorld ⟨⟨alarmMessage⟩⟩
    ∧ resourceLogs (handler badKeyWorld sampleGlobals alarmEvent).trace = []
    ∧ (handler badKeyWorld sampleGlobals alarmEvent).outcome = .stopped (.exit 1) := by
  decide

/-- Witness for C4, amended: the load-balancer dimension of the sample alarm,
reached after its target-group dimension, and the event carrying that alarm. -/
theorem handler_other_dimension_witness :
    handlerDimension sampleWorld sampleGlobals ⟨"app/lb/def456", "LoadBalancer"⟩ =
      ⟨[.logResource "LoadBalancer" "app/lb/def456"], .returned ()⟩
    ∧ Exec.forEach
        ([⟨"targetgroup/app/abc123", "TargetGroup"⟩] ++
          (⟨"app/lb/def456", "LoadBalancer"⟩ : Dimension) :: [])
        (handlerDimension sampleWorld sampleGlobals) =
      ⟨(Exec.forEach [⟨"targetgroup/app/abc123", "TargetGroup"⟩]
            (handlerDimension sampleWorld sampleGlobals)).trace ++
          .logResource "LoadBalancer" "app/lb/def456" ::
            (Exec.forEach [] (handlerDimension sampleWorld sampleGlobals)).trace,
        (Exec.forEach [] (handlerDimension sampleWorld sampleGlobals)).outcome⟩
    ∧ (handler sampleWorld sampleGlobals alarmEvent).outcome = .returned ()
    ∧ healthQueries (handler sampleWorld sampleGlobals alarmEvent).trace =
        alarmEvent.Records.flatMap
          (fun r => targetGroupArns sampleGlobals.defaultRegion (ownDimensions sampleWorld r))
    ∧ ((handler sampleWorld sampleGlobals ⟨[⟨⟨noDimensionsMessage⟩⟩]⟩).outcome = .returned ()
      ∧ (∀ e ∈ (handler sampleWorld sampleGlobals ⟨[⟨⟨noDimensionsMessage⟩⟩]⟩).trace,
          isDownstreamCall e = false)
      ∧ resourceLogs (handler sampleWorld sampleGlobals ⟨[⟨⟨noDimensionsMessage⟩⟩]⟩).trace =
          (⟨[⟨⟨noDimensionsMessage⟩⟩]⟩ : SNSEvent).Records.flatMap
            (fun r => (ownDimensions sampleWorld r).map (fun d => (d.Name, d.Value)))) :=
  ⟨(handler_other_dimension sampleWorld sampleGlobals).1 ⟨"app/lb/def456", "LoadBalancer"⟩
      (by decide),
    (handler_other_dimension sampleWorld sampleGlobals).2.1
      [⟨"targetgroup/app/abc123", "TargetGroup"⟩] [] ⟨"app/lb/def456", "LoadBalancer"⟩
      (by decide) (by decide),
    by decide,
    ((handler_other_dimension sampleWorld sampleGlobals).2.2.2.1 alarmEvent
      ⟨rfl, trivial⟩).2 (by decide),
    (handler_other_dimension sampleWorld sampleGlobals).2.2.2.2 ⟨[⟨⟨noDimensionsMessage⟩⟩]⟩
      ⟨rfl, trivial⟩ (by
        intro r hr d hd
        simp only [List.mem_singleton] at hr
        subst hr
        have hnil : ownDimensions sampleWorld ⟨⟨noDimensionsMessage⟩⟩ = [] := by decide
        rw [hnil] at hd
        cases hd)⟩

/-- C5: for every dimension named `TargetGroup` whose health query returns an
error, of either kind, beside a response that holds no record, the handler
does not fault: it logs the error, makes no address resolution and no
remote-shell call for the dimension, logs the dimension and returns, and the
scan goes on with the dimensions that follow. -/
theorem handler_health_error (w : World) (g : Globals) (resource : Dimension) (err : SdkError)
    (hname : resource.Name = "TargetGroup")
    (hresp : w.DescribeTargetHealth g.defaultRegion
      ("arn:aws:elasticloadbalancing:" ++ g.defaultRegion ++ ":197542431507:" ++
        resource.Value) = (some ⟨[]⟩, some err)) :
    (∃ args, err.Error ∈ args ∧
      handlerDimension w g resource =
        ⟨[.describeTargetHealth g.defaultRegion
            ("arn:aws:elasticloadbalancing:" ++ g.defaultRegion ++ ":197542431507:" ++
              resource.Value),
          .logPrintln args,
          .logResource resource.Name resource.Value], .returned ()⟩)
    ∧ (∀ e ∈ (handlerDimension w g resource).trace,
        isDirectoryCall e = false ∧ isShellCall e = false)
    ∧ (∀ rest : List Dimension,
        Exec.forEach (resource :: rest) (handlerDimension w g) =
          ⟨(handlerDimension w g resource).trace ++
              (Exec.forEach rest (handlerDimension w g)).trace,
            (Exec.forEach rest (handlerDimension w g)).outcome⟩) := by
  obtain ⟨args, hargs, hlog⟩ := logHealthError_some err
  have hdim : handlerDimension w g resource =
      ⟨[.describeTargetHealth g.defaultRegion
          ("arn:aws:elasticloadbalancing:" ++ g.defaultRegion ++ ":197542431507:" ++
            resource.Value),
        .logPrintln args,
        .logResource resource.Name resource.Value], .returned ()⟩ := by
    unfold handlerDimension handlerTargetGroup
    simp [hname, hresp, hlog, Exec.andThen, Exec.emit, Exec.deref, Exec.ret, Exec.forEach]
  refine ⟨⟨args, hargs, hdim⟩, ?_, fun rest => ?_⟩
  · rw [hdim]
    intro e he
    simp only [List.mem_cons, List.mem_singleton, List.not_mem_nil, or_false] at he
    rcases he with rfl | rfl | rfl <;> exact ⟨rfl, rfl⟩
  · rw [Exec.forEach_cons, Exec.andThen_of_returned _ _ () (by rw [hdim])]

/-- Witness for C5: a target group unknown to the health query of the sample
world, alone and as the last dimension of a record that is followed by a
second record in the event. -/
theorem handler_health_error_witness :
    ((∃ args, (SdkError.aws "TargetGroupNotFound" "TargetGroupNotFound: no such group").Error
        ∈ args ∧
      handlerDimension sampleWorld sampleGlobals ⟨"targetgroup/web/def456", "TargetGroup"⟩ =
        ⟨[.describeTargetHealth sampleGlobals.defaultRegion
            ("arn:aws:elasticloadbalancing:" ++ sampleGlobals.defaultRegion ++
              ":197542431507:" ++ "targetgroup/web/def456"),
          .logPrintln args,
          .logResource "TargetGroup" "targetgroup/web/def456"], .returned ()⟩)
      ∧ (∀ e ∈ (handlerDimension sampleWorld sampleGlobals
            ⟨"targetgroup/web/def456", "TargetGroup"⟩).trace,
          isDirectoryCall e = false ∧ isShellCall e = false)
      ∧ (∀ rest : List Dimension,
          Exec.forEach ((⟨"targetgroup/web/def456", "TargetGroup"⟩ : Dimension) :: rest)
              (handlerDimension sampleWorld sampleGlobals) =
            ⟨(handlerDimension sampleWorld sampleGlobals
                  ⟨"targetgroup/web/def456", "TargetGroup"⟩).trace ++
                (Exec.forEach rest (handlerDimension sampleWorld sampleGlobals)).trace,
              (Exec.forEach rest (handlerDimension sampleWorld sampleGlobals)).outcome⟩))
    ∧ handlerDimension sampleWorld sampleGlobals ⟨"targetgroup/web/def456", "TargetGroup"⟩ =
        ⟨[.describeTargetHealth "us-east-1"
            "arn:aws:elasticloadbalancing:us-east-1:197542431507:targetgroup/web/def456",
          .logPrintln ["TargetGroupNotFound", "TargetGroupNotFound: no such group"],
          .logResource "TargetGroup" "targetgroup/web/def456"], .returned ()⟩
    ∧ (handler sampleWorld sampleGlobals ⟨[⟨⟨twoGroupsMessage⟩⟩, ⟨⟨alarmMessage⟩⟩]⟩).outcome =
        .returned ()
    ∧ resourceLogs
        (handler sampleWorld sampleGlobals ⟨[⟨⟨twoGroupsMessage⟩⟩, ⟨⟨alarmMessage⟩⟩]⟩).trace =
        [("TargetGroup", "targetgroup/app/abc123"), ("TargetGroup", "targetgroup/web/def456"),
         ("TargetGroup", "targetgroup/app/abc123"), ("LoadBalancer", "app/lb/def456")] :=
  ⟨handler_health_error sampleWorld sampleGlobals ⟨"targetgroup/web/def456", "TargetGroup"⟩
      (.aws "TargetGroupNotFound" "TargetGroupNotFound: no such group") rfl (by decide),
    by decide, by decide, by decide⟩

end FixUnhealthyHost
